import Mathlib

/-!
Formal model of the Document-Processor repository's two core subsystems:
the chunking step of `POST /api/process-document` (src/server/routes.ts),
the PDF extraction cascade (src/server/pdf-processor.ts), and the
background chunk-processing pipeline (`BackgroundProcessor` together with
the `DatabaseStorage` collaborator).

Strings are modelled as `List Char` (JavaScript strings; the repository's
inputs of interest are ASCII, and `Buffer.toString` in its `binary`,
`ascii` and `utf8` variants coincide on ASCII bytes, so a PDF buffer is
modelled as its byte characters).  External effects (OpenAI calls,
Ghostscript/qpdf/OCR tool invocations) are modelled as oracle
environments supplying the outcome of each call; everything the
repository itself computes is translated directly from the source.
-/

namespace DocProc

/-- Character list of a string literal, for readable concrete inputs. -/
def chars (s : String) : List Char := s.data

/-- Model of JavaScript `String.prototype.startsWith` restricted to what
`includes` needs: does `pat` occur at the head of `l`? -/
def hasPrefixCh : List Char → List Char → Bool
  | [], _ => true
  | _ :: _, [] => false
  | p :: ps, c :: cs => p == c && hasPrefixCh ps cs

/-- Model of JavaScript `String.prototype.includes`: does `pat` occur as a
contiguous substring of `l`?  (An empty pattern is always found, as in JS.) -/
def hasSubstrCh (pat : List Char) : List Char → Bool
  | [] => hasPrefixCh pat []
  | c :: cs => hasPrefixCh pat (c :: cs) || hasSubstrCh pat cs

/-- JavaScript `\s` / `trim` whitespace, restricted to the ASCII whitespace
characters (the repository's marker strings and separators are ASCII). -/
def jsIsSpace (c : Char) : Bool :=
  c == ' ' || c == '\t' || c == '\n' || c == '\r' || c == '\x0b' || c == '\x0c'

/-- Model of JavaScript `String.prototype.trim`. -/
def trimCh (l : List Char) : List Char :=
  ((l.dropWhile jsIsSpace).reverse.dropWhile jsIsSpace).reverse

/-- Model of JavaScript `String.prototype.toLowerCase` on ASCII text. -/
def toLowerCh (l : List Char) : List Char := l.map Char.toLower

/-- Helper for `splitOnCh`; the fuel argument is an upper bound on the
number of characters still to be consumed (`splitOnCh` passes enough). -/
def splitOnChAux (sep : List Char) : Nat → List Char → List Char → List (List Char)
  | 0, acc, _ => [acc.reverse]
  | fuel + 1, acc, l =>
    if sep ≠ [] ∧ hasPrefixCh sep l then
      acc.reverse :: splitOnChAux sep fuel [] (l.drop sep.length)
    else
      match l with
      | [] => [acc.reverse]
      | c :: cs => splitOnChAux sep fuel (c :: acc) cs

/-- Model of JavaScript `String.prototype.split` with a non-empty string
separator (the chunker splits on "\n\n" and "\n"). -/
def splitOnCh (sep l : List Char) : List (List Char) :=
  splitOnChAux sep (l.length + 1) [] l

/-- Helper for `sentenceSplitCh`; fuel-driven scan. -/
def sentenceSplitAux : Nat → List Char → List Char → List (List Char)
  | 0, acc, _ => [acc.reverse]
  | _ + 1, acc, [] => [acc.reverse]
  | fuel + 1, acc, c :: rest =>
    if (match acc with
        | p :: _ => p == '.' || p == '!' || p == '?'
        | [] => false) && jsIsSpace c then
      acc.reverse :: sentenceSplitAux fuel [] (rest.dropWhile jsIsSpace)
    else
      sentenceSplitAux fuel (c :: acc) rest

/-- Model of the sentence split `text.split(/(?<=[.!?])\s+/)` in the
chunking step: cut at each maximal whitespace run whose first character is
preceded by `.`, `!` or `?`; the whitespace is consumed. -/
def sentenceSplitCh (l : List Char) : List (List Char) :=
  sentenceSplitAux (l.length + 1) [] l

/-- Helper for `hardSplitCh`; fuel-driven (the source's loop
`for (let i = 0; i < text.length; i += maxChunkSize)` advances by `m`,
which diverges for `m = 0`; the model is used with `m ≥ 1` only, where the
fuel `l.length` always suffices). -/
def hardSplitAux (m : Nat) : Nat → List Char → List (List Char)
  | 0, _ => []
  | _ + 1, [] => []
  | fuel + 1, c :: cs => (c :: cs).take m :: hardSplitAux m fuel ((c :: cs).drop m)

/-- Force split by character count: `text.substring(i, i + maxChunkSize)`
for `i = 0, m, 2m, ...` (routes.ts chunking step). -/
def hardSplitCh (l : List Char) (m : Nat) : List (List Char) :=
  hardSplitAux m l.length l

/-- The accumulation loop of the chunking step (routes.ts, the
`for (const part of textParts)` loop plus the trailing flush):
state is the list of parts still to consume and `currentChunk`. -/
def chunkAccumulate (m : Nat) : List (List Char) → List Char → List (List Char)
  | [], currentChunk =>
    if trimCh currentChunk ≠ [] then [trimCh currentChunk] else []
  | part :: rest, currentChunk =>
    if (currentChunk ++ part).length > m ∧ currentChunk.length > 0 then
      trimCh currentChunk :: chunkAccumulate m rest part
    else if part.length > m then
      (if trimCh currentChunk ≠ [] then [trimCh currentChunk] else []) ++
        hardSplitCh part m ++ chunkAccumulate m rest []
    else
      chunkAccumulate m rest (if currentChunk = [] then part else currentChunk ++ '\n' :: part)

/-- The chunking step of `POST /api/process-document` (routes.ts):
split the extracted text into parts by paragraphs, then lines, then
sentences, then hard character slicing, and greedily accumulate parts into
chunks bounded by `maxChunkSize` (the route fixes `maxChunkSize = 15000`). -/
def chunkDocumentText (extractedText : List Char) (maxChunkSize : Nat) : List (List Char) :=
  if extractedText.length > maxChunkSize then
    let parts0 := (splitOnCh (chars "\n\n") extractedText).filter
      (fun p => decide (trimCh p ≠ []))
    let parts1 := if parts0.length = 1 then
        (splitOnCh (chars "\n") extractedText).filter (fun p => decide (trimCh p ≠ []))
      else parts0
    let parts2 := if parts1.length = 1 then
        (sentenceSplitCh extractedText).filter (fun p => decide (trimCh p ≠ []))
      else parts1
    let parts3 := if parts2.length = 1 then hardSplitCh (parts2.headD []) maxChunkSize
      else parts2
    chunkAccumulate maxChunkSize parts3 []
  else [extractedText]

/-! ### PDF extraction cascade (src/server/pdf-processor.ts, `PDFProcessor.processPDF`)

The external tools (Ghostscript normalization, Ghostscript text
extraction, pdf2pic+tesseract OCR) are modelled as an oracle environment
`PdfEnv` giving the outcome of each invocation; the orchestration,
marker checks and error classification are translated from the source. -/

/-- Extraction method tag of a successful `processPDF` result. -/
inductive PdfMethod
  | textExtraction
  | normalizedTextExtraction
  | ocr
deriving DecidableEq, Repr

/-- Successful result of `processPDF`. -/
structure PDFProcessingResult where
  text : List Char
  totalPages : Nat
  method : PdfMethod
deriving DecidableEq, Repr

/-- Oracle outcomes of the external tools used by `processPDF`:
`normalizePDF` is the normalization result (`none` = every normalizer
failed, as the source then proceeds with the original buffer);
`extractTextFromPDF` and `extractTextWithOCR` give, per input buffer,
either the thrown error message or the extracted `(text, totalPages)`. -/
structure PdfEnv where
  normalizePDF : Option (List Char)
  extractTextFromPDF : List Char → Except (List Char) (List Char × Nat)
  extractTextWithOCR : List Char → Except (List Char) (List Char × Nat)

/-- Outcome of `processPDF` together with whether the OCR stage
(`extractTextWithOCR`) was invoked. -/
structure PdfOutcome where
  result : Except (List Char) PDFProcessingResult
  ocrAttempted : Bool

/-- Error message thrown when the upload itself looks client-side encrypted. -/
def encryptedUploadMsg : List Char := chars
  "This file appears to be encrypted during upload. This usually happens due to browser extensions or security software. Please try: 1) Disable browser extensions temporarily, 2) Use a different browser or incognito mode, 3) Try uploading from a different network, or 4) Use the test PDF provided in the interface."

/-- Error message for buffers under 1024 bytes without a PDF header. -/
def fileTooSmallMsg : List Char := chars
  "File too small to be a valid PDF. Please check the file and try again."

/-- Error message when no PDF signature is found anywhere in the prefix. -/
def noPdfSignatureMsg : List Char := chars
  "Unable to detect PDF format. Please ensure you are uploading a valid, unprotected PDF file. You can try the test PDF provided in the interface to verify the system is working correctly."

/-- Error message when normalization failed and encryption markers were seen. -/
def normFailedEncryptedMsg : List Char := chars
  "This PDF contains encrypted or protected content that cannot be processed. Please save it as an unprotected PDF and try again."

/-- Error message rethrown by the text-extraction catch block when the
caught message mentions an invalid PDF structure. -/
def structuralIssuesMsg : List Char := chars
  "This PDF has structural issues that prevent processing. Try using \"Print to PDF\" from your PDF viewer to create a clean version."

/-- Error message rethrown by the text-extraction catch block when the
caught message mentions encryption, passwords or protection. -/
def passwordProtectedMsg : List Char := chars
  "This PDF is password-protected. Please remove the password or use \"Print to PDF\" to create an unprotected version."

/-- Error message thrown by the pre-OCR encryption guard. -/
def ocrGuardEncryptedMsg : List Char := chars
  "This PDF contains encrypted content that cannot be processed. Please save it as an unprotected PDF using \"Print to PDF\" and try again."

/-- Final classification: generic encrypted-content message. -/
def classifiedEncryptedMsg : List Char := chars
  "This PDF contains encrypted or protected content that cannot be processed. Please provide an unprotected version."

/-- Final classification: structural-issue message. -/
def classifiedStructuralMsg : List Char := chars
  "This PDF has structural issues that prevent processing. The file may be corrupted or use an unsupported format."

/-- Final classification: catch-all message. -/
def classifiedUnprocessableMsg : List Char := chars
  "Unable to process PDF file. The file may be corrupted, password-protected, or in an unsupported format."

/-- The outer catch of `processPDF`: map the message of any error thrown
during the cascade to the user-facing classification (re-surfacing the
original message for upload-time encryption detections). -/
def classifyPdfError (msg : List Char) : List Char :=
  let lower := toLowerCh msg
  if hasSubstrCh (chars "u2fsdgvkx1") lower || hasSubstrCh (chars "salted") lower ||
      hasSubstrCh (chars "encrypted during upload") lower then
    msg
  else if hasSubstrCh (chars "encrypted") lower then classifiedEncryptedMsg
  else if hasSubstrCh (chars "undefined in") lower ||
      hasSubstrCh (chars "improper image header") lower then classifiedStructuralMsg
  else classifiedUnprocessableMsg

/-- The fallback signature scan: look for `%PDF-` in 512-byte windows at
offsets `0, 512, ...` while the offset is below `min(length, 4096)`. -/
def pdfSignatureSearch (buffer : List Char) : Bool :=
  (List.range 8).any (fun k =>
    decide (k * 512 < min buffer.length 4096) &&
    hasSubstrCh (chars "%PDF-") ((buffer.drop (k * 512)).take 512))

/-- Body of `PDFProcessor.processPDF` (pdf-processor.ts) before its outer
`catch`: the outcome of the cascade paired with whether the OCR stage was
invoked.  The buffer is the byte string of the upload.  The inner
text-extraction `try` is modelled exactly: a marker hit in the extracted
text throws, is caught by the same block's `catch`, whose lowercase test
finds "encrypted" and rethrows `passwordProtectedMsg`; an extraction
error with none of the recognized phrases is swallowed and the cascade
falls through to the OCR stage. -/
def processPDFRaw (buffer : List Char) (env : PdfEnv) :
    Except (List Char) PDFProcessingResult × Bool :=
  let headerBinary := buffer.take 20
  if hasSubstrCh (chars "U2FsdGVkX1") headerBinary then
    (Except.error encryptedUploadMsg, false)
  else
      let hasValidPDFHeader := hasSubstrCh (chars "%PDF-") headerBinary
      if ¬ hasValidPDFHeader = true ∧ buffer.length < 1024 then
        (Except.error fileTooSmallMsg, false)
      else if ¬ hasValidPDFHeader = true ∧ ¬ pdfSignatureSearch buffer = true then
        (Except.error noPdfSignatureMsg, false)
      else
        let hasEncryptionMarkers := hasSubstrCh (chars "U2FsdGVkX1") buffer ||
          hasSubstrCh (chars "/Encrypt") buffer || hasSubstrCh (chars "encrypted") buffer
        let normalizedBuffer := env.normalizePDF
        let processingBuffer := normalizedBuffer.getD buffer
        let normalizationUsed := normalizedBuffer.isSome
        if ¬ normalizationUsed = true ∧ hasEncryptionMarkers = true then
          (Except.error normFailedEncryptedMsg, false)
        else
          let step2 : Option (Except (List Char) PDFProcessingResult) :=
            match env.extractTextFromPDF processingBuffer with
            | Except.ok (text, totalPages) =>
              let extractedText := trimCh text
              if hasSubstrCh (chars "U2FsdGVkX1") extractedText ||
                  hasSubstrCh (chars "encrypted") extractedText then
                some (Except.error passwordProtectedMsg)
              else if 50 ≤ extractedText.length then
                some (Except.ok
                  { text := text, totalPages := totalPages,
                    method := if normalizationUsed then PdfMethod.normalizedTextExtraction
                      else PdfMethod.textExtraction })
              else none
            | Except.error m =>
              let lower := toLowerCh m
              if hasSubstrCh (chars "invalid pdf structure") lower then
                some (Except.error structuralIssuesMsg)
              else if hasSubstrCh (chars "encrypted") lower ||
                  hasSubstrCh (chars "password") lower ||
                  hasSubstrCh (chars "protected") lower then
                some (Except.error passwordProtectedMsg)
              else none
          match step2 with
          | some r => (r, false)
          | none =>
            if hasEncryptionMarkers = true then
              (Except.error ocrGuardEncryptedMsg, false)
            else
              match env.extractTextWithOCR processingBuffer with
              | Except.ok (text, totalPages) =>
                (Except.ok { text := text, totalPages := totalPages, method := PdfMethod.ocr }, true)
              | Except.error m => (Except.error m, true)

/-- Model of `PDFProcessor.processPDF` including its outer `catch`, which
maps any thrown message through `classifyPdfError`. -/
def processPDF (buffer : List Char) (env : PdfEnv) : PdfOutcome :=
  { result := (processPDFRaw buffer env).1.mapError classifyPdfError,
    ocrAttempted := (processPDFRaw buffer env).2 }

/-! ### Background processor (src: `BackgroundProcessor`, `DatabaseStorage`)

The storage tables are modelled as the state of one live (unexpired)
document together with its chunk rows; every document evolves
independently in the source (all chunk queries filter by `documentId`),
so the per-document claims are stated on this state.
`cleanupExpiredDocuments` deletes expired documents only and is the
identity on the modelled live document (the retention/cleanup routine is
out of scope per the specification).  Timestamps are milliseconds as
`Nat`; `new Date()` is the state's `now`.  The OpenAI calls are an oracle
environment `LlmEnv`. -/

/-- Status of a document or chunk row (`pending`, `processing`,
`completed`, `failed`). -/
inductive JobStatus
  | pending
  | processing
  | completed
  | failed
deriving DecidableEq, Repr

/-- Row of the `document_chunks` table (shared/schema.ts), restricted to
the fields the background processor reads or writes. -/
structure DocumentChunk where
  id : Nat
  documentId : Nat
  chunkIndex : Nat
  content : List Char
  processedContent : Option (List Char)
  status : JobStatus
  errorMessage : Option (List Char)
  updatedAt : Nat
deriving DecidableEq, Repr

/-- Row of the `documents` table (shared/schema.ts), restricted to the
fields the background processor and the retry route read or write. -/
structure Document where
  id : Nat
  status : JobStatus
  processedMarkdown : Option (List Char)
  totalChunks : Nat
  processedChunks : Nat
  errorMessage : Option (List Char)
deriving DecidableEq, Repr

/-- Storage state: one live document, its chunk rows, and the clock. -/
structure SysState where
  doc : Document
  chunks : List DocumentChunk
  now : Nat
deriving DecidableEq, Repr

/-- A `Partial<DocumentChunk>` update as passed to
`storage.updateDocumentChunk`: absent fields are untouched, present
fields are written (writing `none` inside stores SQL NULL). -/
structure ChunkUpd where
  status : Option JobStatus
  processedContent : Option (Option (List Char))
  errorMessage : Option (Option (List Char))
deriving Repr

/-- Apply a chunk update; `DatabaseStorage.updateDocumentChunk` always
also sets `updatedAt` to the current time. -/
def applyChunkUpd (now : Nat) (u : ChunkUpd) (c : DocumentChunk) : DocumentChunk :=
  { c with
    status := u.status.getD c.status
    processedContent := u.processedContent.getD c.processedContent
    errorMessage := u.errorMessage.getD c.errorMessage
    updatedAt := now }

/-- `storage.updateDocumentChunk(id, updates)`: update every row whose
primary key matches `id` (unique in the database). -/
def updateDocumentChunk (s : SysState) (id : Nat) (u : ChunkUpd) : SysState :=
  { s with chunks := s.chunks.map (fun c => if c.id = id then applyChunkUpd s.now u c else c) }

/-- A `Partial<Document>` update as passed to `storage.updateDocument`. -/
structure DocUpd where
  status : Option JobStatus
  processedMarkdown : Option (Option (List Char))
  processedChunks : Option Nat
  errorMessage : Option (Option (List Char))
deriving Repr

/-- Apply a document update. -/
def applyDocUpd (u : DocUpd) (d : Document) : Document :=
  { d with
    status := u.status.getD d.status
    processedMarkdown := u.processedMarkdown.getD d.processedMarkdown
    processedChunks := u.processedChunks.getD d.processedChunks
    errorMessage := u.errorMessage.getD d.errorMessage }

/-- `storage.updateDocument(id, updates)` on the modelled live document. -/
def updateDocument (s : SysState) (u : DocUpd) : SysState :=
  { s with doc := applyDocUpd u s.doc }

/-- Oracle outcomes of the OpenAI calls made by `processChunk`:
`chatCompletion` is the direct `openai.chat.completions.create` call,
taking the model name chosen for the attempt and returning either the
thrown error message or `choices[0].message.content` (nullable);
`assistantRun` is the outcome of the whole beta-threads fallback
(thread creation, run, polling, message read-back): either the thrown
error message (timeout, failed run status, missing response, API error)
or the assistant's text. -/
structure LlmEnv where
  chatCompletion : List Char → Except (List Char) (Option (List Char))
  assistantRun : Except (List Char) (List Char)

/-- Decimal digit character. -/
def digitChar (d : Nat) : Char :=
  match d with
  | 0 => '0' | 1 => '1' | 2 => '2' | 3 => '3' | 4 => '4'
  | 5 => '5' | 6 => '6' | 7 => '7' | 8 => '8' | _ => '9'

/-- Helper for `natChars` (fuel-driven base-10 printing). -/
def natCharsAux : Nat → Nat → List Char
  | 0, _ => []
  | fuel + 1, n =>
    if n < 10 then [digitChar n] else natCharsAux fuel (n / 10) ++ [digitChar (n % 10)]

/-- Decimal representation of a natural number (JS number interpolation
for the non-negative integers appearing in the modelled messages). -/
def natChars (n : Nat) : List Char := natCharsAux (n + 1) n

/-- ASCII digit test (JS `\d`). -/
def isDigitCh (c : Char) : Bool := decide ('0' ≤ c) && decide (c ≤ '9')

/-- Does the list start with `RETRY_` followed by at least one digit
(the anchored part of the regex `/RETRY_(\d+)/`)? -/
def startsWithRetryNum (l : List Char) : Bool :=
  match l with
  | 'R' :: 'E' :: 'T' :: 'R' :: 'Y' :: '_' :: d :: _ => isDigitCh d
  | _ => false

/-- Value of the leading digit run (`parseInt` of the `\d+` capture). -/
def digitRunVal (l : List Char) : Nat :=
  (l.takeWhile isDigitCh).foldl (fun n c => 10 * n + (c.toNat - 48)) 0

/-- First match of `/RETRY_(\d+)/`: scan left to right for `RETRY_`
followed by a digit and parse the digit run; `0` when there is no match
(the source's `|| '0'` fallback). -/
def firstRetryNum : List Char → Nat
  | [] => 0
  | c :: rest =>
    if startsWithRetryNum (c :: rest) then digitRunVal ((c :: rest).drop 6)
    else firstRetryNum rest

/-- The retry count recorded in a chunk's error field:
`isRetry ? parseInt(chunk.errorMessage.match(/RETRY_(\d+)/)?.[1] || '0') : 0`. -/
def parseRetryCount (errorMessage : Option (List Char)) : Nat :=
  match errorMessage with
  | some m => if hasSubstrCh (chars "LOW_RETENTION_RETRY") m then firstRetryNum m else 0
  | none => 0

/-- Model selection in `processChunk`: `gpt-4o` on a low-retention retry,
`gpt-4o-mini` otherwise. -/
def chooseModel (errorMessage : Option (List Char)) : List Char :=
  let isRetry := match errorMessage with
    | some m => hasSubstrCh (chars "LOW_RETENTION_RETRY") m
    | none => false
  let retryCount := parseRetryCount errorMessage
  if isRetry = true ∨ 0 < retryCount then chars "gpt-4o" else chars "gpt-4o-mini"

/-- Transient-error test of `processChunk`'s catch block (case-sensitive
`String.prototype.includes` checks, exactly as in the source). -/
def isRetryableError (m : List Char) : Bool :=
  hasSubstrCh (chars "rate limit") m || hasSubstrCh (chars "timeout") m ||
    hasSubstrCh (chars "network") m || hasSubstrCh (chars "503") m ||
    hasSubstrCh (chars "502") m

/-- Message stored in `processedContent` for an oversized chunk. -/
def oversizedChunkMessage (n : Nat) : List Char :=
  chars "Error: Chunk too large (" ++ natChars n ++
    chars " characters). Please use a smaller document or contact support."

/-- Error field written on a low-retention reset:
`LOW_RETENTION_RETRY_${newRetryCount}: ${...}% retention`; the
interpolated percentage (floating-point `toFixed` formatting) is elided,
as nothing downstream reads it — only the `RETRY_` count is parsed. -/
def lowRetentionMessage (newRetryCount : Nat) : List Char :=
  chars "LOW_RETENTION_RETRY_" ++ natChars newRetryCount ++ chars ": % retention"

/-- Mark a chunk completed with its processed content and increment the
document's `processedChunks` against the freshly re-read document row
(`(currentDoc?.processedChunks || 0) + 1`). -/
def completeChunk (s : SysState) (id : Nat) (processedContent : List Char) : SysState :=
  let s2 := updateDocumentChunk s id
    { status := some JobStatus.completed, processedContent := some (some processedContent),
      errorMessage := none }
  updateDocument s2
    { status := none, processedMarkdown := none,
      processedChunks := some (s2.doc.processedChunks + 1), errorMessage := none }

/-- The hard ceiling of the oversized-chunk guard. -/
def chunkSizeCeiling : Nat := 100000

/-- Model of `BackgroundProcessor.processChunk` (the `document` and
`totalChunks` parameters of the source only feed the API configuration
and the prompt wording, which live in `LlmEnv`).  The retention rate
comparison `processedLength / originalLength < 0.95` is modelled exactly
on the rationals as `20 * processedLength < 19 * originalLength`, which
also agrees with the source's IEEE semantics when `originalLength = 0`
(NaN and Infinity both fail the `< 0.95` test). -/
def processChunk (s : SysState) (chunk : DocumentChunk) (env : LlmEnv) : SysState :=
  let s1 := updateDocumentChunk s chunk.id
    { status := some JobStatus.processing, processedContent := none, errorMessage := none }
  if chunkSizeCeiling < chunk.content.length then
    updateDocumentChunk s1 chunk.id
      { status := some JobStatus.failed,
        processedContent := some (some (oversizedChunkMessage chunk.content.length)),
        errorMessage := none }
  else
    let retryCount := parseRetryCount chunk.errorMessage
    match env.chatCompletion (chooseModel chunk.errorMessage) with
    | Except.ok content =>
      let processedContent := if content.getD [] = [] then chunk.content else content.getD []
      if 20 * processedContent.length < 19 * chunk.content.length ∧ retryCount < 2 then
        updateDocumentChunk s1 chunk.id
          { status := some JobStatus.pending, processedContent := none,
            errorMessage := some (some (lowRetentionMessage (retryCount + 1))) }
      else completeChunk s1 chunk.id processedContent
    | Except.error _ =>
      match env.assistantRun with
      | Except.ok t => completeChunk s1 chunk.id t
      | Except.error m =>
        if isRetryableError m then
          updateDocumentChunk s1 chunk.id
            { status := some JobStatus.pending, processedContent := none,
              errorMessage := some (some (chars "Retrying: " ++ m)) }
        else
          updateDocumentChunk s1 chunk.id
            { status := some JobStatus.failed, processedContent := none,
              errorMessage := some (some m) }

/-- The stuck threshold: 5 minutes in milliseconds. -/
def stuckChunkThreshold : Nat := 5 * 60 * 1000

/-- `DatabaseStorage.getStuckChunks`: rows with `status = 'processing'`
and `updatedAt < now - thresholdMs`. -/
def getStuckChunks (s : SysState) (thresholdMs : Nat) : List DocumentChunk :=
  s.chunks.filter (fun c =>
    decide (c.status = JobStatus.processing) && decide (c.updatedAt + thresholdMs < s.now))

/-- The update written for each stuck chunk:
`{ status: 'pending', errorMessage: null }`. -/
def resetStuckUpd : ChunkUpd :=
  { status := some JobStatus.pending, processedContent := none, errorMessage := some none }

/-- The loop body of `recoverStuckChunks` over a list of stuck rows. -/
def recoverFold (L : List DocumentChunk) (s : SysState) : SysState :=
  L.foldl (fun st c => updateDocumentChunk st c.id resetStuckUpd) s

/-- `BackgroundProcessor.recoverStuckChunks`: reset every stuck chunk to
`pending` with its error cleared (one `updateDocumentChunk` per chunk). -/
def recoverStuckChunks (s : SysState) : SysState :=
  recoverFold (getStuckChunks s stuckChunkThreshold) s

/-- Insert a chunk into a list sorted by ascending `chunkIndex`. -/
def insertByChunkIndex (c : DocumentChunk) : List DocumentChunk → List DocumentChunk
  | [] => [c]
  | d :: ds =>
    if c.chunkIndex ≤ d.chunkIndex then c :: d :: ds else d :: insertByChunkIndex c ds

/-- The `chunks.sort((a, b) => a.chunkIndex - b.chunkIndex)` of
`finalizeDocument` (a stable comparison sort on the numeric key). -/
def sortByChunkIndex : List DocumentChunk → List DocumentChunk
  | [] => []
  | c :: cs => insertByChunkIndex c (sortByChunkIndex cs)

/-- Model of `BackgroundProcessor.finalizeDocument`: concatenate the
`processedContent` of the chunks sorted by `chunkIndex`, joined by a
blank line (`Array.prototype.join` renders a null entry as the empty
string), store it and mark the document completed. -/
def finalizeDocument (s : SysState) : SysState :=
  let sortedChunks := sortByChunkIndex s.chunks
  let processedMarkdown :=
    List.intercalate (chars "\n\n") (sortedChunks.map (fun c => c.processedContent.getD []))
  updateDocument s
    { status := some JobStatus.completed, processedMarkdown := some (some processedMarkdown),
      processedChunks := none, errorMessage := none }

/-- One tick of `BackgroundProcessor.processNextChunk` on the modelled
live document: recover stuck chunks, then — when the document is in
`processing` — either process its first pending chunk, or finalize or
fail it.  (`cleanupExpiredDocuments` is the identity here, see above;
the `isProcessing` single-flight guard is outside the model because a
tick is executed atomically.) -/
def processNextChunk (s : SysState) (env : LlmEnv) : SysState :=
  let s1 := recoverStuckChunks s
  if s1.doc.status = JobStatus.processing then
    match s1.chunks.find? (fun c => decide (c.status = JobStatus.pending)) with
    | some pendingChunk => processChunk s1 pendingChunk env
    | none =>
      let completedChunks := s1.chunks.filter (fun c => decide (c.status = JobStatus.completed))
      let failedChunks := s1.chunks.filter (fun c => decide (c.status = JobStatus.failed))
      if completedChunks.length = s1.chunks.length then finalizeDocument s1
      else if 0 < failedChunks.length then
        updateDocument s1
          { status := some JobStatus.failed, processedMarkdown := none, processedChunks := none,
            errorMessage := some (some (natChars failedChunks.length ++
              chars " chunks failed to process")) }
      else s1
  else s1

/-- The external retry action `POST /api/documents/:id/retry`
(routes.ts): only a failed document is retried; its status is reset to
`processing` with `processedChunks := 0` and the error cleared, then each
failed chunk row (updated by primary key, unique per row) is reset to
`pending` with error and processed content cleared. -/
def retryDocument (s : SysState) : SysState :=
  if s.doc.status = JobStatus.failed then
    let s1 := updateDocument s
      { status := some JobStatus.processing, processedMarkdown := none,
        processedChunks := some 0, errorMessage := some none }
    { s1 with chunks := s1.chunks.map (fun c =>
        if c.status = JobStatus.failed then
          { c with
            status := JobStatus.pending
            errorMessage := none
            processedContent := none
            updatedAt := s1.now }
        else c) }
  else s

/-- State of a document right after the chunking step of
`POST /api/process-document`: document created `pending`, then updated to
`processing` with `totalChunks`, then one `pending` chunk row per chunk
with contiguous `chunkIndex` (ids are fresh serial keys). -/
def mkInitialState (contents : List (List Char)) (now : Nat) : SysState :=
  { doc := { id := 1, status := JobStatus.processing, processedMarkdown := none,
             totalChunks := contents.length, processedChunks := 0, errorMessage := none },
    chunks := contents.enum.map (fun p =>
      { id := p.1 + 1, documentId := 1, chunkIndex := p.1, content := p.2,
        processedContent := none, status := JobStatus.pending, errorMessage := none,
        updatedAt := now }),
    now := now }

/-- Advance the wall clock between externally observable steps. -/
def advanceClock (s : SysState) (dt : Nat) : SysState := { s with now := s.now + dt }

/-- States reachable from document creation through scheduler ticks and
the external retry action. -/
inductive Reach : SysState → Prop
  | init (contents : List (List Char)) (now : Nat) : Reach (mkInitialState contents now)
  | tick {s : SysState} (h : Reach s) (dt : Nat) (env : LlmEnv) :
      Reach (processNextChunk (advanceClock s dt) env)
  | retry {s : SysState} (h : Reach s) (dt : Nat) : Reach (retryDocument (advanceClock s dt))

/-- States reachable through scheduler ticks only (no external retry). -/
inductive ReachNoRetry : SysState → Prop
  | init (contents : List (List Char)) (now : Nat) : ReachNoRetry (mkInitialState contents now)
  | tick {s : SysState} (h : ReachNoRetry s) (dt : Nat) (env : LlmEnv) :
      ReachNoRetry (processNextChunk (advanceClock s dt) env)

/-! ### Basic lemmas about the storage operations -/

@[simp]
theorem applyChunkUpd_id (now : Nat) (u : ChunkUpd) (c : DocumentChunk) :
    (applyChunkUpd now u c).id = c.id := rfl

@[simp]
theorem applyChunkUpd_chunkIndex (now : Nat) (u : ChunkUpd) (c : DocumentChunk) :
    (applyChunkUpd now u c).chunkIndex = c.chunkIndex := rfl

@[simp]
theorem applyChunkUpd_content (now : Nat) (u : ChunkUpd) (c : DocumentChunk) :
    (applyChunkUpd now u c).content = c.content := rfl

@[simp]
theorem applyChunkUpd_status (now : Nat) (u : ChunkUpd) (c : DocumentChunk) :
    (applyChunkUpd now u c).status = u.status.getD c.status := rfl

@[simp]
theorem applyChunkUpd_errorMessage (now : Nat) (u : ChunkUpd) (c : DocumentChunk) :
    (applyChunkUpd now u c).errorMessage = u.errorMessage.getD c.errorMessage := rfl

@[simp]
theorem applyChunkUpd_processedContent (now : Nat) (u : ChunkUpd) (c : DocumentChunk) :
    (applyChunkUpd now u c).processedContent = u.processedContent.getD c.processedContent := rfl

@[simp]
theorem chunks_updateDocumentChunk (s : SysState) (i : Nat) (u : ChunkUpd) :
    (updateDocumentChunk s i u).chunks =
      s.chunks.map (fun c => if c.id = i then applyChunkUpd s.now u c else c) := rfl

@[simp]
theorem now_updateDocumentChunk (s : SysState) (i : Nat) (u : ChunkUpd) :
    (updateDocumentChunk s i u).now = s.now := rfl

@[simp]
theorem doc_updateDocumentChunk (s : SysState) (i : Nat) (u : ChunkUpd) :
    (updateDocumentChunk s i u).doc = s.doc := rfl

@[simp]
theorem chunks_updateDocument (s : SysState) (u : DocUpd) :
    (updateDocument s u).chunks = s.chunks := rfl

@[simp]
theorem now_updateDocument (s : SysState) (u : DocUpd) :
    (updateDocument s u).now = s.now := rfl

@[simp]
theorem doc_updateDocument (s : SysState) (u : DocUpd) :
    (updateDocument s u).doc = applyDocUpd u s.doc := rfl

/-- Every row of the updated table with the updated key comes from a row
of the old table with that key, with the update applied. -/
theorem exists_src_of_mem_updateDocumentChunk {s : SysState} {i : Nat} {u : ChunkUpd}
    {c' : DocumentChunk} (h : c' ∈ (updateDocumentChunk s i u).chunks) (hid : c'.id = i) :
    ∃ c ∈ s.chunks, c.id = i ∧ c' = applyChunkUpd s.now u c := by
  rw [chunks_updateDocumentChunk] at h
  obtain ⟨c, hc, hceq⟩ := List.mem_map.1 h
  by_cases hcid : c.id = i
  · exact ⟨c, hc, hcid, by rw [← hceq, if_pos hcid]⟩
  · rw [if_neg hcid] at hceq
    exact absurd (hceq ▸ hid) hcid

/-- Rows whose key differs from the updated key are untouched. -/
theorem mem_of_mem_updateDocumentChunk_ne {s : SysState} {i : Nat} {u : ChunkUpd}
    {c' : DocumentChunk} (h : c' ∈ (updateDocumentChunk s i u).chunks) (hid : c'.id ≠ i) :
    c' ∈ s.chunks := by
  rw [chunks_updateDocumentChunk] at h
  obtain ⟨c, hc, hceq⟩ := List.mem_map.1 h
  by_cases hcid : c.id = i
  · rw [if_pos hcid] at hceq
    exact absurd (hceq ▸ hcid) hid
  · rw [if_neg hcid] at hceq
    exact hceq ▸ hc

/-- Composition of the two row updates a `processChunk` branch performs. -/
theorem exists_src_of_mem_update_update {s : SysState} {i : Nat} {u₁ u₂ : ChunkUpd}
    {c' : DocumentChunk}
    (h : c' ∈ (updateDocumentChunk (updateDocumentChunk s i u₁) i u₂).chunks)
    (hid : c'.id = i) :
    ∃ c ∈ s.chunks, c.id = i ∧ c' = applyChunkUpd s.now u₂ (applyChunkUpd s.now u₁ c) := by
  obtain ⟨c₁, hc₁, hc₁id, hc₁eq⟩ := exists_src_of_mem_updateDocumentChunk h hid
  obtain ⟨c, hc, hcid, hceq⟩ := exists_src_of_mem_updateDocumentChunk hc₁ hc₁id
  refine ⟨c, hc, hcid, ?_⟩
  rw [hc₁eq, hceq]
  rfl

/-- Every row carrying the updated key after two chained updates has the
status written by the second update. -/
theorem mem_update2_status {s : SysState} {i : Nat} {u₁ u₂ : ChunkUpd} {st : JobStatus}
    (hu : u₂.status = some st) :
    ∀ c' ∈ (updateDocumentChunk (updateDocumentChunk s i u₁) i u₂).chunks,
      c'.id = i → c'.status = st := by
  intro c' h hid
  obtain ⟨c, _, _, hceq⟩ := exists_src_of_mem_update_update h hid
  rw [hceq, applyChunkUpd_status, hu]
  rfl

/-- Whatever the environment does, `processChunk` never leaves the
processed chunk's row in `processing`. -/
theorem processChunk_id_status_ne_processing (s : SysState) (chunk : DocumentChunk)
    (env : LlmEnv) :
    ∀ c' ∈ (processChunk s chunk env).chunks, c'.id = chunk.id →
      c'.status ≠ JobStatus.processing := by
  intro c' h hid
  simp only [processChunk] at h
  by_cases hbig : chunkSizeCeiling < chunk.content.length
  · rw [if_pos hbig] at h
    rw [mem_update2_status rfl c' h hid]
    simp
  · rw [if_neg hbig] at h
    cases hcc : env.chatCompletion (chooseModel chunk.errorMessage) with
    | ok content =>
      simp only [hcc] at h
      by_cases hret : 20 * (if content.getD [] = [] then chunk.content
              else content.getD []).length < 19 * chunk.content.length ∧
            parseRetryCount chunk.errorMessage < 2
      · rw [if_pos hret] at h
        rw [mem_update2_status rfl c' h hid]
        simp
      · rw [if_neg hret] at h
        unfold completeChunk at h
        rw [chunks_updateDocument] at h
        rw [mem_update2_status rfl c' h hid]
        simp
    | error e =>
      simp only [hcc] at h
      cases har : env.assistantRun with
      | ok t =>
        simp only [har] at h
        unfold completeChunk at h
        rw [chunks_updateDocument] at h
        rw [mem_update2_status rfl c' h hid]
        simp
      | error m =>
        simp only [har] at h
        by_cases hr : isRetryableError m = true
        · rw [if_pos hr] at h
          rw [mem_update2_status rfl c' h hid]
          simp
        · rw [if_neg hr] at h
          rw [mem_update2_status rfl c' h hid]
          simp

/-- Rows other than the processed chunk's row are untouched by
`processChunk`. -/
theorem processChunk_mem_ne (s : SysState) (chunk : DocumentChunk) (env : LlmEnv) :
    ∀ c' ∈ (processChunk s chunk env).chunks, c'.id ≠ chunk.id → c' ∈ s.chunks := by
  intro c' h hid
  simp only [processChunk] at h
  by_cases hbig : chunkSizeCeiling < chunk.content.length
  · rw [if_pos hbig] at h
    exact mem_of_mem_updateDocumentChunk_ne (mem_of_mem_updateDocumentChunk_ne h hid) hid
  · rw [if_neg hbig] at h
    cases hcc : env.chatCompletion (chooseModel chunk.errorMessage) with
    | ok content =>
      simp only [hcc] at h
      by_cases hret : 20 * (if content.getD [] = [] then chunk.content
              else content.getD []).length < 19 * chunk.content.length ∧
            parseRetryCount chunk.errorMessage < 2
      · rw [if_pos hret] at h
        exact mem_of_mem_updateDocumentChunk_ne (mem_of_mem_updateDocumentChunk_ne h hid) hid
      · rw [if_neg hret] at h
        unfold completeChunk at h
        rw [chunks_updateDocument] at h
        exact mem_of_mem_updateDocumentChunk_ne (mem_of_mem_updateDocumentChunk_ne h hid) hid
    | error e =>
      simp only [hcc] at h
      cases har : env.assistantRun with
      | ok t =>
        simp only [har] at h
        unfold completeChunk at h
        rw [chunks_updateDocument] at h
        exact mem_of_mem_updateDocumentChunk_ne (mem_of_mem_updateDocumentChunk_ne h hid) hid
      | error m =>
        simp only [har] at h
        by_cases hr : isRetryableError m = true
        · rw [if_pos hr] at h
          exact mem_of_mem_updateDocumentChunk_ne (mem_of_mem_updateDocumentChunk_ne h hid) hid
        · rw [if_neg hr] at h
          exact mem_of_mem_updateDocumentChunk_ne (mem_of_mem_updateDocumentChunk_ne h hid) hid

/-- Resetting a stuck row twice is the same as resetting it once. -/
theorem applyChunkUpd_resetStuck_idem (now : Nat) (c : DocumentChunk) :
    applyChunkUpd now resetStuckUpd (applyChunkUpd now resetStuckUpd c) =
      applyChunkUpd now resetStuckUpd c := rfl

/-- Characterization of the stuck-recovery loop: every row whose key
occurs in the list of stuck rows is reset, every other row is untouched;
the clock and the document are unchanged. -/
theorem recoverFold_spec (L : List DocumentChunk) (s : SysState) :
    (recoverFold L s).chunks = s.chunks.map (fun c =>
        if L.any (fun d => decide (c.id = d.id)) then applyChunkUpd s.now resetStuckUpd c
        else c) ∧
    (recoverFold L s).now = s.now ∧ (recoverFold L s).doc = s.doc := by
  induction L generalizing s with
  | nil =>
    refine ⟨?_, rfl, rfl⟩
    simp [recoverFold]
  | cons d T ih =>
    have hstep : recoverFold (d :: T) s = recoverFold T (updateDocumentChunk s d.id resetStuckUpd) :=
      rfl
    obtain ⟨h1, h2, h3⟩ := ih (updateDocumentChunk s d.id resetStuckUpd)
    rw [hstep]
    refine ⟨?_, by rw [h2]; rfl, by rw [h3]; rfl⟩
    rw [h1, chunks_updateDocumentChunk, now_updateDocumentChunk, List.map_map]
    apply List.map_congr_left
    intro c hc
    simp only [Function.comp]
    by_cases hcd : c.id = d.id
    · simp only [if_pos hcd, applyChunkUpd_id]
      have hany : ((d :: T).any fun d' => decide (c.id = d'.id)) = true := by
        simp [List.any_cons, hcd]
      rw [if_pos hany]
      by_cases hT : (T.any fun d' => decide (c.id = d'.id)) = true
      · rw [if_pos hT, applyChunkUpd_resetStuck_idem]
      · rw [if_neg hT]
    · simp only [if_neg hcd]
      have hcons : ((d :: T).any fun d' => decide (c.id = d'.id)) =
          (T.any fun d' => decide (c.id = d'.id)) := by
        simp [List.any_cons, hcd]
      rw [hcons]

/-- Chunk table after `recoverStuckChunks`. -/
theorem recoverStuckChunks_chunks (s : SysState) :
    (recoverStuckChunks s).chunks = s.chunks.map (fun c =>
      if (getStuckChunks s stuckChunkThreshold).any (fun d => decide (c.id = d.id)) then
        applyChunkUpd s.now resetStuckUpd c
      else c) :=
  (recoverFold_spec (getStuckChunks s stuckChunkThreshold) s).1

/-- `recoverStuckChunks` leaves the clock unchanged. -/
theorem recoverStuckChunks_now (s : SysState) : (recoverStuckChunks s).now = s.now :=
  (recoverFold_spec (getStuckChunks s stuckChunkThreshold) s).2.1

/-- `recoverStuckChunks` leaves the document row unchanged. -/
theorem recoverStuckChunks_doc (s : SysState) : (recoverStuckChunks s).doc = s.doc :=
  (recoverFold_spec (getStuckChunks s stuckChunkThreshold) s).2.2

/-- Every row after `recoverStuckChunks` is an old row, either untouched
or reset to pending with its error cleared. -/
theorem mem_recoverStuckChunks {s : SysState} {c' : DocumentChunk}
    (h : c' ∈ (recoverStuckChunks s).chunks) :
    ∃ c ∈ s.chunks, c' = c ∨ c' = applyChunkUpd s.now resetStuckUpd c := by
  rw [recoverStuckChunks_chunks] at h
  obtain ⟨c, hc, hceq⟩ := List.mem_map.1 h
  by_cases hcond :
      ((getStuckChunks s stuckChunkThreshold).any (fun d => decide (c.id = d.id))) = true
  · rw [if_pos hcond] at hceq
    exact ⟨c, hc, Or.inr hceq.symm⟩
  · rw [if_neg hcond] at hceq
    exact ⟨c, hc, Or.inl hceq.symm⟩

/-! ### Concrete fixtures used to instantiate the theorems -/

/-- Default chunk row (used only as a `headD` fallback). -/
def defaultChunk : DocumentChunk :=
  { id := 0, documentId := 0, chunkIndex := 0, content := [], processedContent := none,
    status := JobStatus.pending, errorMessage := none, updatedAt := 0 }

/-- A pending chunk row with the given content and error field. -/
def mkTestChunk (content : List Char) (errorMessage : Option (List Char)) : DocumentChunk :=
  { id := 1, documentId := 1, chunkIndex := 0, content := content, processedContent := none,
    status := JobStatus.pending, errorMessage := errorMessage, updatedAt := 0 }

/-- A one-chunk processing document state around a given chunk row. -/
def mkTestState (c : DocumentChunk) : SysState :=
  { doc := { id := 1, status := JobStatus.processing, processedMarkdown := none,
             totalChunks := 1, processedChunks := 0, errorMessage := none },
    chunks := [c], now := 10 }

/-- Environment whose direct completion call returns the given text. -/
def okEnv (t : List Char) : LlmEnv :=
  { chatCompletion := fun _ => Except.ok (some t), assistantRun := Except.error (chars "unused") }

/-- Environment whose direct call and assistant fallback both throw. -/
def errEnv (d a : List Char) : LlmEnv :=
  { chatCompletion := fun _ => Except.error d, assistantRun := Except.error a }

/-- Environment whose direct call throws and whose assistant fallback
returns the given text. -/
def fallbackEnv (d t : List Char) : LlmEnv :=
  { chatCompletion := fun _ => Except.error d, assistantRun := Except.ok t }

/-! ### Claim C1 -/

/-- C1: the claim states that every chunk produced by the chunking step
has length at most `M` (any oversized part is force-split by character
count).  The code violates this: with `M = 5` and input `"aa\n\nbbbbbbb"`
the oversized second paragraph arrives while `currentChunk` is non-empty,
so the first branch of the accumulation loop takes it (`currentChunk`
becomes the oversized part) and the force-split branch is never reached;
the part is emitted whole as a chunk of length `7 > 5`. -/
theorem chunkDocumentText_emits_oversized_chunk :
    chunkDocumentText (chars "aa\n\nbbbbbbb") 5 = [chars "aa", chars "bbbbbbb"] ∧
    ∃ c ∈ chunkDocumentText (chars "aa\n\nbbbbbbb") 5, 5 < c.length :=
  ⟨by decide, chars "bbbbbbb", by decide, by decide⟩

/-! ### Claim C8 -/

/-- C8: a chunk whose content exceeds the hard size ceiling (100000,
distinct from the chunker's target size) is marked failed with the
explicit oversize message, no LLM call is made (the outcome is
independent of the LLM environment), and the chunk is not reset to
pending. -/
theorem processChunk_oversized_guard (s : SysState) (chunk : DocumentChunk) (env : LlmEnv)
    (hbig : chunkSizeCeiling < chunk.content.length) :
    (∀ c' ∈ (processChunk s chunk env).chunks, c'.id = chunk.id →
        c'.status = JobStatus.failed ∧
        c'.processedContent = some (oversizedChunkMessage chunk.content.length) ∧
        c'.status ≠ JobStatus.pending) ∧
    (∀ env' : LlmEnv, processChunk s chunk env = processChunk s chunk env') := by
  constructor
  · intro c' h hid
    simp only [processChunk] at h
    rw [if_pos hbig] at h
    obtain ⟨c, hc, hcid, hceq⟩ := exists_src_of_mem_update_update h hid
    subst hceq
    exact ⟨rfl, rfl, by simp⟩
  · intro env'
    simp only [processChunk]
    rw [if_pos hbig, if_pos hbig]

/-- Closed instance of C8 at a 100001-character chunk: the result is the
same under an environment whose LLM succeeds and one whose LLM fails,
because no LLM call is made. -/
theorem processChunk_oversized_guard_witness :
    processChunk (mkTestState (mkTestChunk (List.replicate 100001 'a') none))
        (mkTestChunk (List.replicate 100001 'a') none) (okEnv (chars "tiny")) =
      processChunk (mkTestState (mkTestChunk (List.replicate 100001 'a') none))
        (mkTestChunk (List.replicate 100001 'a') none) (errEnv (chars "d") (chars "a")) := by
  have hbig : chunkSizeCeiling < (mkTestChunk (List.replicate 100001 'a') none).content.length := by
    show chunkSizeCeiling < (List.replicate 100001 'a').length
    rw [List.length_replicate]
    norm_num [chunkSizeCeiling]
  exact (processChunk_oversized_guard (mkTestState (mkTestChunk (List.replicate 100001 'a') none))
    (mkTestChunk (List.replicate 100001 'a') none) (okEnv (chars "tiny")) hbig).2
    (errEnv (chars "d") (chars "a"))

/-! ### Claim C10 -/

/-- C10: a chunk processed through the stateful assistant fallback
(entered only when the direct completion call throws) is completed with
the assistant's output persisted and no retention-rate check: the
conclusion holds with no hypothesis on the output/input length ratio, so
the 95% retention guard applies only to the direct-completion path. -/
theorem processChunk_assistant_fallback_no_retention (s : SysState) (chunk : DocumentChunk)
    (env : LlmEnv) (e t : List Char)
    (hd : env.chatCompletion (chooseModel chunk.errorMessage) = Except.error e)
    (ha : env.assistantRun = Except.ok t)
    (hsize : ¬ chunkSizeCeiling < chunk.content.length) :
    (∀ c' ∈ (processChunk s chunk env).chunks, c'.id = chunk.id →
        c'.status = JobStatus.completed ∧ c'.processedContent = some t) ∧
    (processChunk s chunk env).doc.processedChunks = s.doc.processedChunks + 1 := by
  constructor
  · intro c' h hid
    simp only [processChunk] at h
    rw [if_neg hsize] at h
    simp only [hd, ha] at h
    unfold completeChunk at h
    rw [chunks_updateDocument] at h
    obtain ⟨c, hc, hcid, hceq⟩ := exists_src_of_mem_update_update h hid
    subst hceq
    exact ⟨rfl, rfl⟩
  · simp only [processChunk]
    rw [if_neg hsize]
    simp only [hd, ha]
    unfold completeChunk
    simp [applyDocUpd]

/-- The result state of the concrete C10 instance: a 10-character chunk
whose direct call fails and whose assistant returns a 1-character answer
(a 10% retention rate, far below 95%). -/
def assistantFallbackResult : SysState :=
  processChunk (mkTestState (mkTestChunk (chars "0123456789") none))
    (mkTestChunk (chars "0123456789") none) (fallbackEnv (chars "direct boom") (chars "x"))

/-- Closed instance of C10: the chunk is completed with the assistant's
short output even though retention is 10%. -/
theorem processChunk_assistant_fallback_no_retention_witness :
    (assistantFallbackResult.chunks.headD defaultChunk).status = JobStatus.completed ∧
    (assistantFallbackResult.chunks.headD defaultChunk).processedContent =
      some (chars "x") := by
  have h := (processChunk_assistant_fallback_no_retention
      (mkTestState (mkTestChunk (chars "0123456789") none))
      (mkTestChunk (chars "0123456789") none)
      (fallbackEnv (chars "direct boom") (chars "x"))
      (chars "direct boom") (chars "x") rfl rfl (by decide)).1
    (assistantFallbackResult.chunks.headD defaultChunk) (by decide) (by decide)
  exact h

/-! ### Claim C3 -/

/-- C3: on the direct-completion path, an output shorter than 95% of the
input with a recorded retry count below 2 does not complete the chunk: it
is reset to pending with the retry count incremented inside the error
field (so the next attempt parses the incremented count and escalates to
the higher-fidelity model `gpt-4o`), and the document row is untouched;
once the recorded retry count has reached 2 the output is accepted and
the chunk completed regardless of the ratio. -/
theorem processChunk_retention_guard (s : SysState) (chunk : DocumentChunk) (env : LlmEnv)
    (raw : Option (List Char))
    (hd : env.chatCompletion (chooseModel chunk.errorMessage) = Except.ok raw)
    (hsize : ¬ chunkSizeCeiling < chunk.content.length) :
    (20 * (if raw.getD [] = [] then chunk.content else raw.getD []).length <
        19 * chunk.content.length →
      parseRetryCount chunk.errorMessage < 2 →
      (∀ c' ∈ (processChunk s chunk env).chunks, c'.id = chunk.id →
        c'.status = JobStatus.pending ∧
        c'.errorMessage = some (lowRetentionMessage (parseRetryCount chunk.errorMessage + 1)) ∧
        parseRetryCount c'.errorMessage = parseRetryCount chunk.errorMessage + 1 ∧
        chooseModel c'.errorMessage = chars "gpt-4o") ∧
      (processChunk s chunk env).doc = s.doc) ∧
    (2 ≤ parseRetryCount chunk.errorMessage →
      ∀ c' ∈ (processChunk s chunk env).chunks, c'.id = chunk.id →
        c'.status = JobStatus.completed ∧
        c'.processedContent =
          some (if raw.getD [] = [] then chunk.content else raw.getD [])) := by
  constructor
  · intro hlow hrc
    constructor
    · intro c' h hid
      simp only [processChunk] at h
      rw [if_neg hsize] at h
      simp only [hd] at h
      rw [if_pos ⟨hlow, hrc⟩] at h
      obtain ⟨c, hc, hcid, hceq⟩ := exists_src_of_mem_update_update h hid
      subst hceq
      refine ⟨rfl, rfl, ?_, ?_⟩
      · show parseRetryCount
          (some (lowRetentionMessage (parseRetryCount chunk.errorMessage + 1))) =
          parseRetryCount chunk.errorMessage + 1
        have hcases : parseRetryCount chunk.errorMessage = 0 ∨
            parseRetryCount chunk.errorMessage = 1 := by omega
        rcases hcases with h0 | h1
        · rw [h0]; decide
        · rw [h1]; decide
      · show chooseModel
          (some (lowRetentionMessage (parseRetryCount chunk.errorMessage + 1))) =
          chars "gpt-4o"
        have hcases : parseRetryCount chunk.errorMessage = 0 ∨
            parseRetryCount chunk.errorMessage = 1 := by omega
        rcases hcases with h0 | h1
        · rw [h0]; decide
        · rw [h1]; decide
    · simp only [processChunk]
      rw [if_neg hsize]
      simp only [hd]
      rw [if_pos ⟨hlow, hrc⟩]
      rfl
  · intro h2 c' h hid
    simp only [processChunk] at h
    rw [if_neg hsize] at h
    simp only [hd] at h
    rw [if_neg (fun hx => absurd hx.2 (by omega))] at h
    unfold completeChunk at h
    rw [chunks_updateDocument] at h
    obtain ⟨c, hc, hcid, hceq⟩ := exists_src_of_mem_update_update h hid
    subst hceq
    exact ⟨rfl, rfl⟩

/-- The result state of the concrete C3 instance: a 10-character chunk
whose first direct attempt returns 3 characters (30% retention). -/
def retentionGuardResult : SysState :=
  processChunk (mkTestState (mkTestChunk (chars "aaaaaaaaaa") none))
    (mkTestChunk (chars "aaaaaaaaaa") none) (okEnv (chars "abc"))

/-- Closed instance of C3: the low-retention chunk is reset to pending
with retry count 1 in its error field, and the next attempt would use
`gpt-4o`. -/
theorem processChunk_retention_guard_witness :
    (retentionGuardResult.chunks.headD defaultChunk).status = JobStatus.pending ∧
    (retentionGuardResult.chunks.headD defaultChunk).errorMessage =
      some (lowRetentionMessage 1) ∧
    chooseModel (retentionGuardResult.chunks.headD defaultChunk).errorMessage =
      chars "gpt-4o" := by
  have h := ((processChunk_retention_guard (mkTestState (mkTestChunk (chars "aaaaaaaaaa") none))
      (mkTestChunk (chars "aaaaaaaaaa") none) (okEnv (chars "abc")) (some (chars "abc"))
      rfl (by decide)).1 (by decide) (by decide)).1
    (retentionGuardResult.chunks.headD defaultChunk) (by decide) (by decide)
  exact ⟨h.1, h.2.1, h.2.2.2⟩

/-! ### Claim C5 -/

/-- C5 (amended): an error that escapes the chunk-processing attempt is
classified by `isRetryableError` — the message must contain one of the
five substrings `rate limit`, `timeout`, `network`, `503`, `502`; a
retryable error resets the chunk to pending with the error recorded
(prefixed `Retrying: `), every other error (including other 5xx codes
such as 500) marks the chunk failed with the error recorded. -/
theorem processChunk_error_classification (s : SysState) (chunk : DocumentChunk)
    (env : LlmEnv) (e m : List Char)
    (hd : env.chatCompletion (chooseModel chunk.errorMessage) = Except.error e)
    (ha : env.assistantRun = Except.error m)
    (hsize : ¬ chunkSizeCeiling < chunk.content.length) :
    (isRetryableError m = true →
      ∀ c' ∈ (processChunk s chunk env).chunks, c'.id = chunk.id →
        c'.status = JobStatus.pending ∧
        c'.errorMessage = some (chars "Retrying: " ++ m)) ∧
    (isRetryableError m = false →
      ∀ c' ∈ (processChunk s chunk env).chunks, c'.id = chunk.id →
        c'.status = JobStatus.failed ∧ c'.errorMessage = some m) := by
  constructor
  · intro hr c' h hid
    simp only [processChunk] at h
    rw [if_neg hsize] at h
    simp only [hd, ha] at h
    rw [if_pos hr] at h
    obtain ⟨c, hc, hcid, hceq⟩ := exists_src_of_mem_update_update h hid
    subst hceq
    exact ⟨rfl, rfl⟩
  · intro hr c' h hid
    simp only [processChunk] at h
    rw [if_neg hsize] at h
    simp only [hd, ha] at h
    rw [if_neg (by simp [hr])] at h
    obtain ⟨c, hc, hcid, hceq⟩ := exists_src_of_mem_update_update h hid
    subst hceq
    exact ⟨rfl, rfl⟩

/-- The result state of the C5 counterexample: both LLM paths fail and
the escaping message reports an HTTP 500 server error. -/
def http500Result : SysState :=
  processChunk (mkTestState (mkTestChunk (chars "hello world") none))
    (mkTestChunk (chars "hello world") none)
    (errEnv (chars "direct failure") (chars "Request failed with status code 500"))

/-- C5 counterexample: a 5xx server error (HTTP 500) is NOT classified
retryable by the code — the chunk is marked failed, not reset to pending
as the claim requires for "any 5xx server error". -/
theorem processChunk_http500_marked_failed :
    hasSubstrCh (chars "500") (chars "Request failed with status code 500") = true ∧
    isRetryableError (chars "Request failed with status code 500") = false ∧
    (http500Result.chunks.headD defaultChunk).status = JobStatus.failed ∧
    ¬ (http500Result.chunks.headD defaultChunk).status = JobStatus.pending := by
  exact ⟨by decide, by decide, by decide, by decide⟩

/-- The result state of the C5 witness: both LLM paths fail and the
escaping message mentions a timeout. -/
def timeoutResult : SysState :=
  processChunk (mkTestState (mkTestChunk (chars "hello world") none))
    (mkTestChunk (chars "hello world") none)
    (errEnv (chars "direct failure") (chars "Gateway timeout"))

/-- Closed instance of the amended C5: a timeout error resets the chunk
to pending with the error recorded. -/
theorem processChunk_error_classification_witness :
    (timeoutResult.chunks.headD defaultChunk).status = JobStatus.pending ∧
    (timeoutResult.chunks.headD defaultChunk).errorMessage =
      some (chars "Retrying: " ++ chars "Gateway timeout") := by
  have h := (processChunk_error_classification
      (mkTestState (mkTestChunk (chars "hello world") none))
      (mkTestChunk (chars "hello world") none)
      (errEnv (chars "direct failure") (chars "Gateway timeout"))
      (chars "direct failure") (chars "Gateway timeout") rfl rfl (by decide)).1
    (by decide) (timeoutResult.chunks.headD defaultChunk) (by decide) (by decide)
  exact h

/-! ### Claim C9 -/

/-- C9: whenever `processChunk` returns, the processed chunk's stored
status is completed, failed or pending — never `processing`; and a full
scheduler tick started with no chunk in `processing` ends with no chunk
in `processing`. -/
theorem processChunk_never_leaves_processing (s : SysState) (chunk : DocumentChunk)
    (env : LlmEnv) :
    (∀ c' ∈ (processChunk s chunk env).chunks, c'.id = chunk.id →
        c'.status ≠ JobStatus.processing) ∧
    ((∀ c ∈ s.chunks, c.status ≠ JobStatus.processing) →
      ∀ c' ∈ (processNextChunk s env).chunks, c'.status ≠ JobStatus.processing) := by
  constructor
  · exact processChunk_id_status_ne_processing s chunk env
  · intro hs c' h
    have hrec : ∀ x ∈ (recoverStuckChunks s).chunks, x.status ≠ JobStatus.processing := by
      intro x hx
      obtain ⟨c, hc, hcase⟩ := mem_recoverStuckChunks hx
      rcases hcase with hxc | hxc
      · rw [hxc]; exact hs c hc
      · rw [hxc]; simp [resetStuckUpd]
    simp only [processNextChunk] at h
    by_cases hdoc : (recoverStuckChunks s).doc.status = JobStatus.processing
    · rw [if_pos hdoc] at h
      cases hfind : (recoverStuckChunks s).chunks.find?
          (fun c => decide (c.status = JobStatus.pending)) with
      | some pc =>
        simp only [hfind] at h
        by_cases hcid : c'.id = pc.id
        · exact processChunk_id_status_ne_processing (recoverStuckChunks s) pc env c' h hcid
        · exact hrec c' (processChunk_mem_ne (recoverStuckChunks s) pc env c' h hcid)
      | none =>
        simp only [hfind] at h
        by_cases hcomp : ((recoverStuckChunks s).chunks.filter
            (fun c => decide (c.status = JobStatus.completed))).length =
            (recoverStuckChunks s).chunks.length
        · rw [if_pos hcomp] at h
          unfold finalizeDocument at h
          rw [chunks_updateDocument] at h
          exact hrec c' h
        · rw [if_neg hcomp] at h
          by_cases hfail : 0 < ((recoverStuckChunks s).chunks.filter
              (fun c => decide (c.status = JobStatus.failed))).length
          · rw [if_pos hfail] at h
            rw [chunks_updateDocument] at h
            exact hrec c' h
          · rw [if_neg hfail] at h
            exact hrec c' h
    · rw [if_neg hdoc] at h
      exact hrec c' h

/-- Closed instance of C9 at the concrete C3 fixture (a state whose only
chunk is pending). -/
theorem processChunk_never_leaves_processing_witness :
    (retentionGuardResult.chunks.headD defaultChunk).status ≠ JobStatus.processing := by
  exact (processChunk_never_leaves_processing
      (mkTestState (mkTestChunk (chars "aaaaaaaaaa") none))
      (mkTestChunk (chars "aaaaaaaaaa") none) (okEnv (chars "abc"))).1
    (retentionGuardResult.chunks.headD defaultChunk) (by decide) (by decide)

/-! ### Claim C7 -/

/-- C7: a chunk in `processing` whose `updatedAt` is older than the
5-minute stuck threshold is reset to pending with its error cleared by
the recovery phase that opens every scheduler tick; moreover after the
whole tick that chunk is in any case no longer in `processing`. -/
theorem stuck_chunk_reset_within_tick (s : SysState) (c : DocumentChunk) (env : LlmEnv)
    (hc : c ∈ s.chunks) (hst : c.status = JobStatus.processing)
    (hold : c.updatedAt + stuckChunkThreshold < s.now) :
    (∀ c' ∈ (recoverStuckChunks s).chunks, c'.id = c.id →
        c'.status = JobStatus.pending ∧ c'.errorMessage = none) ∧
    (∀ c' ∈ (processNextChunk s env).chunks, c'.id = c.id →
        c'.status ≠ JobStatus.processing) := by
  have hcstuck : c ∈ getStuckChunks s stuckChunkThreshold := by
    simp [getStuckChunks, List.mem_filter, hc, hst, hold]
  have hpart1 : ∀ c' ∈ (recoverStuckChunks s).chunks, c'.id = c.id →
      c'.status = JobStatus.pending ∧ c'.errorMessage = none := by
    intro c' h hid
    rw [recoverStuckChunks_chunks] at h
    obtain ⟨x, hx, hxeq⟩ := List.mem_map.1 h
    have hxid : x.id = c.id := by
      by_cases hcond :
          ((getStuckChunks s stuckChunkThreshold).any fun d => decide (x.id = d.id)) = true
      · rw [if_pos hcond] at hxeq
        rw [← hxeq] at hid
        simpa using hid
      · rw [if_neg hcond] at hxeq
        rw [← hxeq] at hid
        exact hid
    have hcond : ((getStuckChunks s stuckChunkThreshold).any
        fun d => decide (x.id = d.id)) = true :=
      List.any_eq_true.2 ⟨c, hcstuck, by simp [hxid]⟩
    rw [if_pos hcond] at hxeq
    rw [← hxeq]
    exact ⟨rfl, rfl⟩
  refine ⟨hpart1, ?_⟩
  intro c' h hid
  simp only [processNextChunk] at h
  by_cases hdoc : (recoverStuckChunks s).doc.status = JobStatus.processing
  · rw [if_pos hdoc] at h
    cases hfind : (recoverStuckChunks s).chunks.find?
        (fun x => decide (x.status = JobStatus.pending)) with
    | some pc =>
      simp only [hfind] at h
      by_cases hcid : c'.id = pc.id
      · exact processChunk_id_status_ne_processing (recoverStuckChunks s) pc env c' h hcid
      · have := hpart1 c' (processChunk_mem_ne (recoverStuckChunks s) pc env c' h hcid) hid
        rw [this.1]
        simp
    | none =>
      simp only [hfind] at h
      by_cases hcomp : ((recoverStuckChunks s).chunks.filter
          (fun x => decide (x.status = JobStatus.completed))).length =
          (recoverStuckChunks s).chunks.length
      · rw [if_pos hcomp] at h
        unfold finalizeDocument at h
        rw [chunks_updateDocument] at h
        rw [(hpart1 c' h hid).1]
        simp
      · rw [if_neg hcomp] at h
        by_cases hfail : 0 < ((recoverStuckChunks s).chunks.filter
            (fun x => decide (x.status = JobStatus.failed))).length
        · rw [if_pos hfail] at h
          rw [chunks_updateDocument] at h
          rw [(hpart1 c' h hid).1]
          simp
        · rw [if_neg hfail] at h
          rw [(hpart1 c' h hid).1]
          simp
  · rw [if_neg hdoc] at h
    rw [(hpart1 c' h hid).1]
    simp

/-- A stuck fixture: one chunk left `processing` with a stale error, last
updated at time 0, observed at time 300001 (one past the threshold). -/
def stuckState : SysState :=
  { doc := { id := 1, status := JobStatus.processing, processedMarkdown := none,
             totalChunks := 1, processedChunks := 0, errorMessage := none },
    chunks := [{ id := 3, documentId := 1, chunkIndex := 0, content := chars "c",
                 processedContent := none, status := JobStatus.processing,
                 errorMessage := some (chars "old error"), updatedAt := 0 }],
    now := 300001 }

/-- Closed instance of C7: the stuck chunk is pending with a cleared
error after the recovery phase. -/
theorem stuck_chunk_reset_within_tick_witness :
    ((recoverStuckChunks stuckState).chunks.headD defaultChunk).status = JobStatus.pending ∧
    ((recoverStuckChunks stuckState).chunks.headD defaultChunk).errorMessage = none := by
  exact (stuck_chunk_reset_within_tick stuckState
      { id := 3, documentId := 1, chunkIndex := 0, content := chars "c",
        processedContent := none, status := JobStatus.processing,
        errorMessage := some (chars "old error"), updatedAt := 0 }
      (okEnv (chars "t")) (by decide) (by decide) (by decide)).1
    ((recoverStuckChunks stuckState).chunks.headD defaultChunk) (by decide) (by decide)

/-! ### Claim C2 -/

/-- When the header carries the PDF signature and no ciphertext preamble,
the buffer embeds an encryption marker, and every normalizer failed, the
cascade throws the encrypted-content error before consulting any
extraction oracle. -/
theorem processPDFRaw_norm_failed (buffer : List Char) (env : PdfEnv)
    (hu : hasSubstrCh (chars "U2FsdGVkX1") (buffer.take 20) = false)
    (hv : hasSubstrCh (chars "%PDF-") (buffer.take 20) = true)
    (hmark : (hasSubstrCh (chars "U2FsdGVkX1") buffer ||
      hasSubstrCh (chars "/Encrypt") buffer ||
      hasSubstrCh (chars "encrypted") buffer) = true)
    (hn : env.normalizePDF = none) :
    processPDFRaw buffer env = (Except.error normFailedEncryptedMsg, false) := by
  unfold processPDFRaw
  dsimp only
  rw [if_neg (by simp [hu]), if_neg (by simp [hv]), if_neg (by simp [hv]),
    if_pos (by simp [hn, hmark])]

/-- When the header carries the PDF signature and no ciphertext preamble,
a normalizer succeeded, and text extraction on the normalized buffer
yields at least 50 characters of marker-free text, the cascade returns
that text as a `normalized-text-extraction` success without OCR. -/
theorem processPDFRaw_normalized_success (buffer : List Char) (env : PdfEnv)
    (nb text : List Char) (pages : Nat)
    (hu : hasSubstrCh (chars "U2FsdGVkX1") (buffer.take 20) = false)
    (hv : hasSubstrCh (chars "%PDF-") (buffer.take 20) = true)
    (hn : env.normalizePDF = some nb)
    (hext : env.extractTextFromPDF nb = Except.ok (text, pages))
    (hm1 : hasSubstrCh (chars "U2FsdGVkX1") (trimCh text) = false)
    (hm2 : hasSubstrCh (chars "encrypted") (trimCh text) = false)
    (hlen : 50 ≤ (trimCh text).length) :
    processPDFRaw buffer env =
      (Except.ok { text := text, totalPages := pages,
                   method := PdfMethod.normalizedTextExtraction }, false) := by
  unfold processPDFRaw
  dsimp only
  rw [if_neg (by simp [hu]), if_neg (by simp [hv]), if_neg (by simp [hv]),
    if_neg (by simp [hn]), hn]
  simp only [Option.getD_some, Option.isSome_some, hext]
  rw [if_neg (by simp [hm1, hm2]), if_pos hlen]
  rfl

/-- C2 (amended): for every buffer containing an embedded encryption
marker (the ciphertext preamble `U2FsdGVkX1` or the `/Encrypt` dictionary
token), the OCR stage is never reached.  Moreover, for such buffers whose
header carries the PDF signature and no ciphertext preamble: if every
normalizer fails, extraction fails with the Encrypted-classified error
before any extraction attempt (the outcome is independent of the
extraction oracles); and if normalization succeeds and text extraction
yields at least 50 characters of marker-free text, extraction returns a
success (so the claimed "the result is never a success" is false — see
the counterexample). -/
theorem processPDF_markers_never_reach_ocr (buffer : List Char) (env : PdfEnv)
    (hm : hasSubstrCh (chars "U2FsdGVkX1") buffer = true ∨
          hasSubstrCh (chars "/Encrypt") buffer = true) :
    (processPDF buffer env).ocrAttempted = false ∧
    (hasSubstrCh (chars "U2FsdGVkX1") (buffer.take 20) = false →
     hasSubstrCh (chars "%PDF-") (buffer.take 20) = true →
     env.normalizePDF = none →
       (processPDF buffer env).result = Except.error classifiedEncryptedMsg ∧
       (∀ env' : PdfEnv, env'.normalizePDF = none →
         processPDF buffer env' = processPDF buffer env)) ∧
    (hasSubstrCh (chars "U2FsdGVkX1") (buffer.take 20) = false →
     hasSubstrCh (chars "%PDF-") (buffer.take 20) = true →
     ∀ nb text : List Char, ∀ pages : Nat, env.normalizePDF = some nb →
       env.extractTextFromPDF nb = Except.ok (text, pages) →
       hasSubstrCh (chars "U2FsdGVkX1") (trimCh text) = false →
       hasSubstrCh (chars "encrypted") (trimCh text) = false →
       50 ≤ (trimCh text).length →
       (processPDF buffer env).result =
         Except.ok { text := text, totalPages := pages,
                     method := PdfMethod.normalizedTextExtraction }) := by
  have hmark : (hasSubstrCh (chars "U2FsdGVkX1") buffer ||
      hasSubstrCh (chars "/Encrypt") buffer ||
      hasSubstrCh (chars "encrypted") buffer) = true := by
    rcases hm with h | h <;> simp [h]
  refine ⟨?_, ?_, ?_⟩
  · show (processPDFRaw buffer env).2 = false
    unfold processPDFRaw
    dsimp only
    split
    · rfl
    · split
      · rfl
      · split
        · rfl
        · split
          · rfl
          · split
            · rfl
            · simp [hmark]
  · intro hu hv hn
    have hraw := processPDFRaw_norm_failed buffer env hu hv hmark hn
    constructor
    · show ((processPDFRaw buffer env).1.mapError classifyPdfError) = _
      rw [hraw]
      rfl
    · intro env' hn'
      have hraw' := processPDFRaw_norm_failed buffer env' hu hv hmark hn'
      simp only [processPDF, hraw, hraw']
  · intro hu hv nb text pages hn hext hm1 hm2 hlen
    have hraw := processPDFRaw_normalized_success buffer env nb text pages hu hv hn hext
      hm1 hm2 hlen
    show ((processPDFRaw buffer env).1.mapError classifyPdfError) = _
    rw [hraw]
    rfl

/-- A PDF buffer that embeds the `/Encrypt` dictionary token. -/
def pdfMarkerBuffer : List Char := chars "%PDF-1.4 /Encrypt 0 R"

/-- Clean extracted text of more than 50 characters, free of markers. -/
def pdfCleanText : List Char :=
  chars "Lorem ipsum dolor sit amet, consectetur adipiscing elit, sed do."

/-- Environment in which normalization succeeds and text extraction
returns the clean text. -/
def pdfMarkerEnv : PdfEnv :=
  { normalizePDF := some (chars "%PDF-1.4 normalized"),
    extractTextFromPDF := fun _ => Except.ok (pdfCleanText, 2),
    extractTextWithOCR := fun _ => Except.error (chars "unused") }

/-- C2 counterexample: a buffer containing the `/Encrypt` marker for
which extraction SUCCEEDS (normalization worked and the text layer was
clean and long enough), contradicting the claim that the result is never
a success; OCR is still never attempted. -/
theorem processPDF_markers_can_succeed :
    hasSubstrCh (chars "/Encrypt") pdfMarkerBuffer = true ∧
    (processPDF pdfMarkerBuffer pdfMarkerEnv).result =
      Except.ok { text := pdfCleanText, totalPages := 2,
                  method := PdfMethod.normalizedTextExtraction } ∧
    (processPDF pdfMarkerBuffer pdfMarkerEnv).ocrAttempted = false := by
  refine ⟨by decide, rfl, rfl⟩

/-- Environment in which every normalizer fails. -/
def pdfNoNormEnv : PdfEnv :=
  { normalizePDF := none,
    extractTextFromPDF := fun _ => Except.ok (pdfCleanText, 2),
    extractTextWithOCR := fun _ => Except.error (chars "unused") }

/-- Closed instance of the amended C2: with the `/Encrypt` marker present
OCR is never attempted; with every normalizer failing the cascade errors
out with the Encrypted classification; and with normalization and a clean
text layer succeeding the result is the normalized-text-extraction
success. -/
theorem processPDF_markers_never_reach_ocr_witness :
    (processPDF pdfMarkerBuffer pdfMarkerEnv).ocrAttempted = false ∧
    (processPDF pdfMarkerBuffer pdfNoNormEnv).result =
      Except.error classifiedEncryptedMsg ∧
    (processPDF pdfMarkerBuffer pdfMarkerEnv).result =
      Except.ok { text := pdfCleanText, totalPages := 2,
                  method := PdfMethod.normalizedTextExtraction } :=
  ⟨(processPDF_markers_never_reach_ocr pdfMarkerBuffer pdfMarkerEnv
      (Or.inr (by decide))).1,
   ((processPDF_markers_never_reach_ocr pdfMarkerBuffer pdfNoNormEnv
      (Or.inr (by decide))).2.1 (by decide) (by decide) rfl).1,
   (processPDF_markers_never_reach_ocr pdfMarkerBuffer pdfMarkerEnv
      (Or.inr (by decide))).2.2 (by decide) (by decide)
     (chars "%PDF-1.4 normalized") pdfCleanText 2 rfl rfl
     (by decide) (by decide) (by decide)⟩

/-! ### Claim C4 -/

/-- Inserting into the sort is a permutation of consing. -/
theorem insertByChunkIndex_perm (c : DocumentChunk) (l : List DocumentChunk) :
    List.Perm (insertByChunkIndex c l) (c :: l) := by
  induction l with
  | nil => rfl
  | cons d ds ih =>
    by_cases h : c.chunkIndex ≤ d.chunkIndex
    · rw [insertByChunkIndex, if_pos h]
    · rw [insertByChunkIndex, if_neg h]
      exact (ih.cons d).trans (List.Perm.swap c d ds)

/-- The sort permutes the chunk list. -/
theorem sortByChunkIndex_perm (l : List DocumentChunk) :
    List.Perm (sortByChunkIndex l) l := by
  induction l with
  | nil => rfl
  | cons c cs ih =>
    exact (insertByChunkIndex_perm c (sortByChunkIndex cs)).trans (ih.cons c)

/-- Members of an insertion. -/
theorem mem_insertByChunkIndex {x c : DocumentChunk} {l : List DocumentChunk}
    (h : x ∈ insertByChunkIndex c l) : x = c ∨ x ∈ l := by
  have hm := (insertByChunkIndex_perm c l).mem_iff.1 h
  simpa using hm

/-- Insertion preserves sortedness by `chunkIndex`. -/
theorem insertByChunkIndex_pairwise {c : DocumentChunk} {l : List DocumentChunk}
    (h : l.Pairwise (fun a b => a.chunkIndex ≤ b.chunkIndex)) :
    (insertByChunkIndex c l).Pairwise (fun a b => a.chunkIndex ≤ b.chunkIndex) := by
  induction l with
  | nil => simp [insertByChunkIndex]
  | cons d ds ih =>
    rcases List.pairwise_cons.1 h with ⟨hd, hds⟩
    by_cases hcd : c.chunkIndex ≤ d.chunkIndex
    · rw [insertByChunkIndex, if_pos hcd]
      refine List.pairwise_cons.2 ⟨?_, h⟩
      intro x hx
      rcases List.mem_cons.1 hx with hxd | hxm
      · rw [hxd]
        exact hcd
      · exact le_trans hcd (hd x hxm)
    · rw [insertByChunkIndex, if_neg hcd]
      refine List.pairwise_cons.2 ⟨?_, ih hds⟩
      intro x hx
      rcases mem_insertByChunkIndex hx with hxc | hxm
      · rw [hxc]
        exact le_of_not_le hcd
      · exact hd x hxm

/-- The sort is sorted by ascending `chunkIndex`. -/
theorem sortByChunkIndex_pairwise (l : List DocumentChunk) :
    (sortByChunkIndex l).Pairwise (fun a b => a.chunkIndex ≤ b.chunkIndex) := by
  induction l with
  | nil => simp [sortByChunkIndex]
  | cons c cs ih => exact insertByChunkIndex_pairwise ih

/-- With pairwise-distinct `chunkIndex` (the chunking step creates
contiguous indices), sorting is invariant under permutation of the rows:
the reassembly order does not depend on processing order. -/
theorem sortByChunkIndex_eq_of_perm {l₁ l₂ : List DocumentChunk}
    (hp : List.Perm l₁ l₂)
    (hnd : l₁.Pairwise (fun a b => a.chunkIndex ≠ b.chunkIndex)) :
    sortByChunkIndex l₁ = sortByChunkIndex l₂ := by
  have hperm : List.Perm (sortByChunkIndex l₁) (sortByChunkIndex l₂) :=
    ((sortByChunkIndex_perm l₁).trans hp).trans (sortByChunkIndex_perm l₂).symm
  have hnd₁ : (sortByChunkIndex l₁).Pairwise (fun a b => a.chunkIndex ≠ b.chunkIndex) :=
    (List.Perm.pairwise_iff (fun h => h.symm) (sortByChunkIndex_perm l₁)).2 hnd
  have hnd₂ : (sortByChunkIndex l₂).Pairwise (fun a b => a.chunkIndex ≠ b.chunkIndex) :=
    (List.Perm.pairwise_iff (fun h => h.symm) hperm).1 hnd₁
  have hlt₁ : List.Sorted (fun a b : DocumentChunk => a.chunkIndex < b.chunkIndex)
      (sortByChunkIndex l₁) :=
    ((sortByChunkIndex_pairwise l₁).and hnd₁).imp fun h => lt_of_le_of_ne h.1 h.2
  have hlt₂ : List.Sorted (fun a b : DocumentChunk => a.chunkIndex < b.chunkIndex)
      (sortByChunkIndex l₂) :=
    ((sortByChunkIndex_pairwise l₂).and hnd₂).imp fun h => lt_of_le_of_ne h.1 h.2
  haveI : IsAntisymm DocumentChunk (fun a b => a.chunkIndex < b.chunkIndex) :=
    ⟨fun a b h1 h2 => absurd (lt_trans h1 h2) (lt_irrefl _)⟩
  exact List.eq_of_perm_of_sorted hperm hlt₁ hlt₂

/-- C4: for a document whose chunks are all completed, finalization
stores as the document's markdown the chunks' `processedContent` joined
by a blank line in ascending `chunkIndex` order — the sorted list is a
sorted permutation of the rows, and the stored markdown is invariant
under any permutation of the rows (so the order in which chunks were
processed is irrelevant) — and marks the document completed. -/
theorem finalizeDocument_assembles_in_index_order (s : SysState)
    (hall : ∀ c ∈ s.chunks, c.status = JobStatus.completed)
    (hnd : s.chunks.Pairwise (fun a b => a.chunkIndex ≠ b.chunkIndex)) :
    (finalizeDocument s).doc.status = JobStatus.completed ∧
    (finalizeDocument s).doc.processedMarkdown =
      some (List.intercalate (chars "\n\n")
        ((sortByChunkIndex s.chunks).map (fun c => c.processedContent.getD []))) ∧
    (sortByChunkIndex s.chunks).Pairwise (fun a b => a.chunkIndex ≤ b.chunkIndex) ∧
    List.Perm (sortByChunkIndex s.chunks) s.chunks ∧
    (∀ s' : SysState, List.Perm s'.chunks s.chunks →
      (finalizeDocument s').doc.processedMarkdown =
        (finalizeDocument s).doc.processedMarkdown) := by
  refine ⟨rfl, rfl, sortByChunkIndex_pairwise s.chunks, sortByChunkIndex_perm s.chunks, ?_⟩
  intro s' hp
  have hnd' : s'.chunks.Pairwise (fun a b => a.chunkIndex ≠ b.chunkIndex) :=
    (List.Perm.pairwise_iff (fun h => h.symm) hp).2 hnd
  have hsort : sortByChunkIndex s'.chunks = sortByChunkIndex s.chunks :=
    sortByChunkIndex_eq_of_perm hp hnd'
  show some (List.intercalate (chars "\n\n")
      ((sortByChunkIndex s'.chunks).map (fun c => c.processedContent.getD []))) =
    some (List.intercalate (chars "\n\n")
      ((sortByChunkIndex s.chunks).map (fun c => c.processedContent.getD [])))
  rw [hsort]

/-- Fixture for C4: three completed chunks stored in processing order
`[2, 0, 1]` with contents `C`, `A`, `B`. -/
def finalizeFixture : SysState :=
  { doc := { id := 1, status := JobStatus.processing, processedMarkdown := none,
             totalChunks := 3, processedChunks := 3, errorMessage := none },
    chunks :=
      [{ id := 11, documentId := 1, chunkIndex := 2, content := chars "c",
         processedContent := some (chars "C"), status := JobStatus.completed,
         errorMessage := none, updatedAt := 0 },
       { id := 12, documentId := 1, chunkIndex := 0, content := chars "a",
         processedContent := some (chars "A"), status := JobStatus.completed,
         errorMessage := none, updatedAt := 0 },
       { id := 13, documentId := 1, chunkIndex := 1, content := chars "b",
         processedContent := some (chars "B"), status := JobStatus.completed,
         errorMessage := none, updatedAt := 0 }], now := 0 }

/-- Closed instance of C4 (the spec's own test vector): chunks completed
in order `[2, 0, 1]` are assembled as `A`, `B`, `C` and the document is
marked completed. -/
theorem finalizeDocument_assembles_in_index_order_witness :
    (finalizeDocument finalizeFixture).doc.status = JobStatus.completed ∧
    (finalizeDocument finalizeFixture).doc.processedMarkdown =
      some (chars "A\n\nB\n\nC") := by
  have h := finalizeDocument_assembles_in_index_order finalizeFixture
    (by decide) (by decide)
  refine ⟨h.1, ?_⟩
  rw [h.2.1]
  decide

/-! ### Claim C6: invariants over reachable states -/

/-- Is a chunk row in terminal success state? -/
def isCompletedCh (c : DocumentChunk) : Bool := decide (c.status = JobStatus.completed)

/-- Number of completed chunk rows. -/
def completedCount (l : List DocumentChunk) : Nat := l.countP isCompletedCh

/-- Key list of a chunk table. -/
def chunkIds (l : List DocumentChunk) : List Nat := l.map (fun c => c.id)

/-- With unique keys, two rows with the same key are the same row. -/
theorem eq_of_mem_chunkIds_nodup {l : List DocumentChunk} (hnd : (chunkIds l).Nodup)
    {x y : DocumentChunk} (hx : x ∈ l) (hy : y ∈ l) (hxy : x.id = y.id) : x = y :=
  List.inj_on_of_nodup_map hnd hx hy hxy

/-- A pointwise status-preserving rewrite of the table preserves any
status count. -/
theorem countP_congr_map (l : List DocumentChunk) (g : DocumentChunk → DocumentChunk)
    (p : DocumentChunk → Bool) (h : ∀ c ∈ l, p (g c) = p c) :
    (l.map g).countP p = l.countP p := by
  induction l with
  | nil => rfl
  | cons a t ih =>
    rw [List.map_cons, List.countP_cons, List.countP_cons,
      ih (fun c hc => h c (List.mem_cons_of_mem a hc)), h a (List.mem_cons_self a t)]

/-- An id-preserving rewrite of the table preserves the key list. -/
theorem chunkIds_map_of_preserve (l : List DocumentChunk) (g : DocumentChunk → DocumentChunk)
    (h : ∀ c, (g c).id = c.id) : chunkIds (l.map g) = chunkIds l := by
  unfold chunkIds
  rw [List.map_map]
  exact List.map_congr_left (fun c _ => h c)

/-- Updating the unique row with key `i` from a non-counted to a counted
status increments the count by exactly one. -/
theorem countP_update_succ (l : List DocumentChunk) (i : Nat)
    (F : DocumentChunk → DocumentChunk) (p : DocumentChunk → Bool)
    (hnd : (chunkIds l).Nodup) {x : DocumentChunk} (hx : x ∈ l) (hxi : x.id = i)
    (hpx : p x = false) (hpF : p (F x) = true) :
    (l.map (fun c => if c.id = i then F c else c)).countP p = l.countP p + 1 := by
  induction l with
  | nil => cases hx
  | cons a t ih =>
    unfold chunkIds at hnd
    rw [List.map_cons] at hnd
    obtain ⟨hna, hndt⟩ := List.nodup_cons.1 hnd
    rw [List.map_cons, List.countP_cons, List.countP_cons]
    rcases List.mem_cons.1 hx with hxa | hxt
    · subst hxa
      rw [if_pos hxi, hpF, hpx]
      have htail : (t.map (fun c => if c.id = i then F c else c)) = t.map id := by
        apply List.map_congr_left
        intro c hc
        rw [if_neg, id]
        intro hci
        exact hna (by rw [hxi, ← hci]; exact List.mem_map_of_mem _ hc)
      rw [htail, List.map_id]
      simp
    · have ha : ¬ a.id = i := by
        intro hai
        exact hna (by rw [hai, ← hxi]; exact List.mem_map_of_mem _ hxt)
      rw [if_neg ha, ih hndt hxt]
      omega

/-- Two chained row updates on the same key collapse to one rewrite. -/
theorem update2_chunks (s : SysState) (i : Nat) (u₁ u₂ : ChunkUpd) :
    (updateDocumentChunk (updateDocumentChunk s i u₁) i u₂).chunks =
      s.chunks.map (fun c => if c.id = i then
        applyChunkUpd s.now u₂ (applyChunkUpd s.now u₁ c) else c) := by
  rw [chunks_updateDocumentChunk, chunks_updateDocumentChunk, now_updateDocumentChunk,
    List.map_map]
  apply List.map_congr_left
  intro c _
  simp only [Function.comp]
  by_cases hci : c.id = i
  · simp only [if_pos hci, applyChunkUpd_id]
  · simp only [if_neg hci]

/-- The bookkeeping invariant maintained by the scheduler in the absence
of the external retry action: `totalChunks` counts the rows,
`processedChunks` counts the completed rows, keys are unique, and a
completed document has `processedChunks = totalChunks`. -/
def SchedulerInv (s : SysState) : Prop :=
  s.doc.totalChunks = s.chunks.length ∧
  s.doc.processedChunks = completedCount s.chunks ∧
  (chunkIds s.chunks).Nodup ∧
  (s.doc.status = JobStatus.completed → s.doc.processedChunks = s.doc.totalChunks)

/-- The document-status/nullability invariant (holds on all reachable
states, the external retry action included): a completed document has a
stored markdown, a failed document has a stored error message. -/
def NullInv (s : SysState) : Prop :=
  (s.doc.status = JobStatus.completed → s.doc.processedMarkdown ≠ none) ∧
  (s.doc.status = JobStatus.failed → s.doc.errorMessage ≠ none)

/-- The initial state satisfies the bookkeeping invariant. -/
theorem SchedulerInv_init (contents : List (List Char)) (now : Nat) :
    SchedulerInv (mkInitialState contents now) := by
  refine ⟨?_, ?_, ?_, ?_⟩
  · show contents.length = (contents.enum.map _).length
    rw [List.length_map, List.enum_length]
  · show 0 = completedCount _
    symm
    rw [completedCount, List.countP_eq_zero]
    intro c hc
    obtain ⟨p, _, hpc⟩ := List.mem_map.1 hc
    rw [← hpc]
    simp [isCompletedCh]
  · show ((contents.enum.map _).map _).Nodup
    rw [List.map_map]
    have : (contents.enum.map fun p => p.1 + 1) =
        (contents.enum.map Prod.fst).map (fun n => n + 1) := by
      rw [List.map_map]
      rfl
    show (contents.enum.map fun p => p.1 + 1).Nodup
    rw [this, List.enum_map_fst]
    exact (List.nodup_range contents.length).map (fun a b => by omega)
  · intro h
    simp [mkInitialState] at h

/-- Stuck-chunk recovery preserves the bookkeeping invariant. -/
theorem SchedulerInv_recover (s : SysState) (h : SchedulerInv s) :
    SchedulerInv (recoverStuckChunks s) := by
  obtain ⟨ht, hc, hnd, hst⟩ := h
  have hchunks := recoverStuckChunks_chunks s
  have hdoc := recoverStuckChunks_doc s
  refine ⟨?_, ?_, ?_, ?_⟩
  · rw [hdoc, hchunks, List.length_map]
    exact ht
  · rw [hdoc, hchunks, completedCount]
    rw [countP_congr_map]
    · exact hc
    · intro c hcm
      by_cases hcond : ((getStuckChunks s stuckChunkThreshold).any
          fun d => decide (c.id = d.id)) = true
      · rw [if_pos hcond]
        obtain ⟨d, hdm, hdid⟩ := List.any_eq_true.1 hcond
        have hdchunks : d ∈ s.chunks := List.mem_of_mem_filter hdm
        have hdproc : d.status = JobStatus.processing := by
          have := List.of_mem_filter hdm
          simp at this
          exact this.1
        have hcd : c = d :=
          eq_of_mem_chunkIds_nodup hnd hcm hdchunks (by simpa using hdid)
        subst hcd
        simp [isCompletedCh, resetStuckUpd, hdproc]
      · rw [if_neg hcond]
  · rw [hchunks]
    rw [chunkIds_map_of_preserve]
    · exact hnd
    · intro c
      by_cases hcond : ((getStuckChunks s stuckChunkThreshold).any
          fun d => decide (c.id = d.id)) = true
      · rw [if_pos hcond, applyChunkUpd_id]
      · rw [if_neg hcond]
  · rw [hdoc]
    exact hst

/-- A `processChunk` branch that ends the chunk in a non-completed status
(oversized, low-retention reset, retryable or fatal error) preserves the
bookkeeping invariant: neither the completed count nor the document row
changes. -/
theorem SchedulerInv_update2_noncount (s : SysState) (chunk : DocumentChunk)
    (u₁ u₂ : ChunkUpd) (hinv : SchedulerInv s)
    (hdoc : s.doc.status = JobStatus.processing)
    (hmem : chunk ∈ s.chunks) (hpend : chunk.status = JobStatus.pending)
    (hF : isCompletedCh (applyChunkUpd s.now u₂ (applyChunkUpd s.now u₁ chunk)) = false) :
    SchedulerInv (updateDocumentChunk (updateDocumentChunk s chunk.id u₁) chunk.id u₂) := by
  obtain ⟨ht, hc, hnd, _⟩ := hinv
  have hchunks := update2_chunks s chunk.id u₁ u₂
  have hdoc2 : (updateDocumentChunk (updateDocumentChunk s chunk.id u₁) chunk.id u₂).doc =
      s.doc := rfl
  refine ⟨?_, ?_, ?_, ?_⟩
  · rw [hdoc2, hchunks, List.length_map]
    exact ht
  · rw [hdoc2, hchunks, completedCount, countP_congr_map]
    · exact hc
    · intro c hcm
      by_cases hci : c.id = chunk.id
      · rw [if_pos hci]
        have hcx : c = chunk := eq_of_mem_chunkIds_nodup hnd hcm hmem hci
        subst hcx
        rw [hF]
        simp [isCompletedCh, hpend]
      · rw [if_neg hci]
  · rw [hchunks, chunkIds_map_of_preserve]
    · exact hnd
    · intro c
      by_cases hci : c.id = chunk.id
      · rw [if_pos hci, applyChunkUpd_id, applyChunkUpd_id]
      · rw [if_neg hci]
  · rw [hdoc2]
    intro hcomp
    rw [hdoc] at hcomp
    exact absurd hcomp (by decide)

/-- Completing the pending chunk preserves the bookkeeping invariant: the
completed count and `processedChunks` both increase by one. -/
theorem SchedulerInv_completeChunk (s : SysState) (chunk : DocumentChunk) (u₁ : ChunkUpd)
    (pcText : List Char) (hinv : SchedulerInv s)
    (hdoc : s.doc.status = JobStatus.processing)
    (hmem : chunk ∈ s.chunks) (hpend : chunk.status = JobStatus.pending) :
    SchedulerInv (completeChunk (updateDocumentChunk s chunk.id u₁) chunk.id pcText) := by
  obtain ⟨ht, hc, hnd, _⟩ := hinv
  unfold completeChunk
  have hchunks := update2_chunks s chunk.id u₁
    { status := some JobStatus.completed, processedContent := some (some pcText),
      errorMessage := none }
  refine ⟨?_, ?_, ?_, ?_⟩
  · show s.doc.totalChunks = _
    rw [chunks_updateDocument, hchunks, List.length_map]
    exact ht
  · show s.doc.processedChunks + 1 = _
    rw [chunks_updateDocument, hchunks, completedCount]
    rw [countP_update_succ s.chunks chunk.id
      (fun c => applyChunkUpd s.now
        { status := some JobStatus.completed, processedContent := some (some pcText),
          errorMessage := none }
        (applyChunkUpd s.now u₁ c)) isCompletedCh hnd hmem rfl
      (by simp [isCompletedCh, hpend]) rfl]
    exact congrArg (fun n => n + 1) hc
  · rw [chunks_updateDocument, hchunks, chunkIds_map_of_preserve]
    · exact hnd
    · intro c
      by_cases hci : c.id = chunk.id
      · rw [if_pos hci, applyChunkUpd_id, applyChunkUpd_id]
      · rw [if_neg hci]
  · intro hcomp
    have h2 : JobStatus.processing = JobStatus.completed := by
      rw [← hdoc]
      exact hcomp
    exact absurd h2 (by decide)

/-- `processChunk` on a pending member chunk of a processing document
preserves the bookkeeping invariant. -/
theorem SchedulerInv_processChunk (s : SysState) (chunk : DocumentChunk) (env : LlmEnv)
    (hinv : SchedulerInv s) (hdoc : s.doc.status = JobStatus.processing)
    (hmem : chunk ∈ s.chunks) (hpend : chunk.status = JobStatus.pending) :
    SchedulerInv (processChunk s chunk env) := by
  simp only [processChunk]
  by_cases hbig : chunkSizeCeiling < chunk.content.length
  · rw [if_pos hbig]
    exact SchedulerInv_update2_noncount s chunk _ _ hinv hdoc hmem hpend rfl
  · rw [if_neg hbig]
    cases hcc : env.chatCompletion (chooseModel chunk.errorMessage) with
    | ok content =>
      simp only [hcc]
      by_cases hret : 20 * (if content.getD [] = [] then chunk.content
            else content.getD []).length < 19 * chunk.content.length ∧
          parseRetryCount chunk.errorMessage < 2
      · rw [if_pos hret]
        exact SchedulerInv_update2_noncount s chunk _ _ hinv hdoc hmem hpend rfl
      · rw [if_neg hret]
        exact SchedulerInv_completeChunk s chunk _ _ hinv hdoc hmem hpend
    | error e =>
      simp only [hcc]
      cases har : env.assistantRun with
      | ok t =>
        simp only [har]
        exact SchedulerInv_completeChunk s chunk _ _ hinv hdoc hmem hpend
      | error m =>
        simp only [har]
        by_cases hr : isRetryableError m = true
        · rw [if_pos hr]
          exact SchedulerInv_update2_noncount s chunk _ _ hinv hdoc hmem hpend rfl
        · rw [if_neg hr]
          exact SchedulerInv_update2_noncount s chunk _ _ hinv hdoc hmem hpend rfl

/-- One scheduler tick preserves the bookkeeping invariant. -/
theorem SchedulerInv_tick (s : SysState) (env : LlmEnv) (h : SchedulerInv s) :
    SchedulerInv (processNextChunk s env) := by
  have h1 : SchedulerInv (recoverStuckChunks s) := SchedulerInv_recover s h
  simp only [processNextChunk]
  by_cases hdoc : (recoverStuckChunks s).doc.status = JobStatus.processing
  · rw [if_pos hdoc]
    cases hfind : (recoverStuckChunks s).chunks.find?
        (fun c => decide (c.status = JobStatus.pending)) with
    | some pc =>
      simp only [hfind]
      have hmem : pc ∈ (recoverStuckChunks s).chunks := List.mem_of_find?_eq_some hfind
      have hpend : pc.status = JobStatus.pending := by
        have := List.find?_some hfind
        simpa using this
      exact SchedulerInv_processChunk _ pc env h1 hdoc hmem hpend
    | none =>
      simp only [hfind]
      obtain ⟨ht1, hc1, hnd1, hst1⟩ := h1
      by_cases hcomp : ((recoverStuckChunks s).chunks.filter
          (fun c => decide (c.status = JobStatus.completed))).length =
          (recoverStuckChunks s).chunks.length
      · rw [if_pos hcomp]
        refine ⟨ht1, hc1, hnd1, ?_⟩
        intro _
        show (recoverStuckChunks s).doc.processedChunks =
          (recoverStuckChunks s).doc.totalChunks
        rw [hc1, ht1, completedCount]
        rw [List.countP_eq_length_filter]
        exact hcomp
      · rw [if_neg hcomp]
        by_cases hfail : 0 < ((recoverStuckChunks s).chunks.filter
            (fun c => decide (c.status = JobStatus.failed))).length
        · rw [if_pos hfail]
          refine ⟨ht1, hc1, hnd1, ?_⟩
          intro hcompl
          exact absurd hcompl (by simp [applyDocUpd])
        · rw [if_neg hfail]
          exact ⟨ht1, hc1, hnd1, hst1⟩
  · rw [if_neg hdoc]
    exact h1

/-- `processChunk` never changes the document's status, markdown or
error message (only `processedChunks`). -/
theorem processChunk_doc_fields (s : SysState) (chunk : DocumentChunk) (env : LlmEnv) :
    (processChunk s chunk env).doc.status = s.doc.status ∧
    (processChunk s chunk env).doc.processedMarkdown = s.doc.processedMarkdown ∧
    (processChunk s chunk env).doc.errorMessage = s.doc.errorMessage := by
  simp only [processChunk]
  by_cases hbig : chunkSizeCeiling < chunk.content.length
  · rw [if_pos hbig]
    exact ⟨rfl, rfl, rfl⟩
  · rw [if_neg hbig]
    cases hcc : env.chatCompletion (chooseModel chunk.errorMessage) with
    | ok content =>
      simp only [hcc]
      by_cases hret : 20 * (if content.getD [] = [] then chunk.content
            else content.getD []).length < 19 * chunk.content.length ∧
          parseRetryCount chunk.errorMessage < 2
      · rw [if_pos hret]
        exact ⟨rfl, rfl, rfl⟩
      · rw [if_neg hret]
        exact ⟨rfl, rfl, rfl⟩
    | error e =>
      simp only [hcc]
      cases har : env.assistantRun with
      | ok t => simp only [har]; exact ⟨rfl, rfl, rfl⟩
      | error m =>
        simp only [har]
        by_cases hr : isRetryableError m = true
        · rw [if_pos hr]; exact ⟨rfl, rfl, rfl⟩
        · rw [if_neg hr]; exact ⟨rfl, rfl, rfl⟩

/-- The initial state satisfies the nullability invariant. -/
theorem NullInv_init (contents : List (List Char)) (now : Nat) :
    NullInv (mkInitialState contents now) := by
  constructor <;> intro h <;> simp [mkInitialState] at h

/-- One scheduler tick preserves the nullability invariant. -/
theorem NullInv_tick (s : SysState) (env : LlmEnv) (h : NullInv s) :
    NullInv (processNextChunk s env) := by
  obtain ⟨h1, h2⟩ := h
  have hdocr := recoverStuckChunks_doc s
  simp only [processNextChunk]
  by_cases hdoc : (recoverStuckChunks s).doc.status = JobStatus.processing
  · rw [if_pos hdoc]
    cases hfind : (recoverStuckChunks s).chunks.find?
        (fun c => decide (c.status = JobStatus.pending)) with
    | some pc =>
      simp only [hfind]
      constructor <;> intro hc <;>
        (rw [(processChunk_doc_fields _ pc env).1, hdoc] at hc; exact absurd hc (by decide))
    | none =>
      simp only [hfind]
      by_cases hcomp : ((recoverStuckChunks s).chunks.filter
          (fun c => decide (c.status = JobStatus.completed))).length =
          (recoverStuckChunks s).chunks.length
      · rw [if_pos hcomp]
        constructor <;> intro hc
        · simp [finalizeDocument, updateDocument, applyDocUpd]
        · simp [finalizeDocument, updateDocument, applyDocUpd] at hc
      · rw [if_neg hcomp]
        by_cases hfail : 0 < ((recoverStuckChunks s).chunks.filter
            (fun c => decide (c.status = JobStatus.failed))).length
        · rw [if_pos hfail]
          constructor <;> intro hc
          · simp [updateDocument, applyDocUpd] at hc
          · simp [updateDocument, applyDocUpd]
        · rw [if_neg hfail]
          constructor <;> intro hc <;> rw [hdocr] at hc ⊢
          · exact h1 hc
          · exact h2 hc
  · rw [if_neg hdoc]
    constructor <;> intro hc <;> rw [hdocr] at hc ⊢
    · exact h1 hc
    · exact h2 hc

/-- The external retry action preserves the nullability invariant. -/
theorem NullInv_retry (s : SysState) (h : NullInv s) : NullInv (retryDocument s) := by
  simp only [retryDocument]
  by_cases hf : s.doc.status = JobStatus.failed
  · rw [if_pos hf]
    constructor <;> intro hc <;> simp [updateDocument, applyDocUpd] at hc
  · rw [if_neg hf]
    exact h

/-- C6 (amended): in every reachable state — external retries included —
a completed document has a non-null final markdown and a failed document
has a non-null error message; and along retry-free executions a completed
document moreover has `processedChunks = totalChunks`.  (The original
count equality fails on traces through the external retry action, which
resets `processedChunks` to 0 while keeping completed chunks — see the
counterexample.) -/
theorem document_status_invariants :
    (∀ s : SysState, Reach s →
      (s.doc.status = JobStatus.completed → s.doc.processedMarkdown ≠ none) ∧
      (s.doc.status = JobStatus.failed → s.doc.errorMessage ≠ none)) ∧
    (∀ s : SysState, ReachNoRetry s → s.doc.status = JobStatus.completed →
      s.doc.processedChunks = s.doc.totalChunks) := by
  constructor
  · intro s hs
    induction hs with
    | init contents now => exact NullInv_init contents now
    | tick hr dt env ih => exact NullInv_tick _ env ih
    | retry hr dt ih => exact NullInv_retry _ ih
  · intro s hs
    have hinv : SchedulerInv s := by
      induction hs with
      | init contents now => exact SchedulerInv_init contents now
      | tick hr dt env ih => exact SchedulerInv_tick _ env ih
    exact hinv.2.2.2

/-- The C6 counterexample trace: a two-chunk document in which chunk 0
completes, chunk 1 fails fatally, the document fails, the user invokes
the external retry (which resets `processedChunks` to 0 but keeps chunk 0
completed), chunk 1 then completes and the document finalizes. -/
def retryTraceFinal : SysState :=
  processNextChunk (advanceClock
    (processNextChunk (advanceClock
      (retryDocument (advanceClock
        (processNextChunk (advanceClock
          (processNextChunk (advanceClock
            (processNextChunk (advanceClock
              (mkInitialState [chars "A", chars "B"] 0) 0)
              (okEnv (chars "A"))) 0)
            (errEnv (chars "da") (chars "boom"))) 0)
          (okEnv (chars "x"))) 0)) 0)
      (okEnv (chars "B"))) 0)
    (okEnv (chars "x"))

/-- C6 counterexample: the final trace state is reachable, its document
is completed, yet `processedChunks = 1 ≠ 2 = totalChunks`, refuting the
claimed invariant for the system with its external retry action. -/
theorem completed_document_with_wrong_count_reachable :
    Reach retryTraceFinal ∧
    retryTraceFinal.doc.status = JobStatus.completed ∧
    retryTraceFinal.doc.processedChunks = 1 ∧
    retryTraceFinal.doc.totalChunks = 2 := by
  refine ⟨?_, by decide, by decide, by decide⟩
  exact Reach.tick (Reach.tick (Reach.retry (Reach.tick (Reach.tick (Reach.tick
    (Reach.init [chars "A", chars "B"] 0) 0 (okEnv (chars "A"))) 0
    (errEnv (chars "da") (chars "boom"))) 0 (okEnv (chars "x"))) 0) 0
    (okEnv (chars "B"))) 0 (okEnv (chars "x"))

/-- A retry-free trace reaching a completed one-chunk document. -/
def completedTraceFinal : SysState :=
  processNextChunk (advanceClock
    (processNextChunk (advanceClock (mkInitialState [chars "A"] 0) 0)
      (okEnv (chars "A"))) 0)
    (okEnv (chars "x"))

/-- Closed instance of the amended C6 at a completed reachable state:
its markdown is non-null and its counts agree. -/
theorem document_status_invariants_witness :
    completedTraceFinal.doc.processedMarkdown ≠ none ∧
    completedTraceFinal.doc.processedChunks = completedTraceFinal.doc.totalChunks := by
  have hr : Reach completedTraceFinal :=
    Reach.tick (Reach.tick (Reach.init [chars "A"] 0) 0 (okEnv (chars "A"))) 0
      (okEnv (chars "x"))
  have hnr : ReachNoRetry completedTraceFinal :=
    ReachNoRetry.tick (ReachNoRetry.tick (ReachNoRetry.init [chars "A"] 0) 0
      (okEnv (chars "A"))) 0 (okEnv (chars "x"))
  exact ⟨(document_status_invariants.1 completedTraceFinal hr).1 (by decide),
    document_status_invariants.2 completedTraceFinal hnr (by decide)⟩

end DocProc
